import Mathlib

/-!
Shallow embedding of the core of the `stock-exchange-system` back end
(`apps/stock-back-end`): the account ledger (`UserService`), the order-book
query and matching engine (`OrderService`), order submission and
cancellation, and the 1-minute candle accumulator (`KlineService` /
`TradeProcessor`).  Database rows are modelled as association lists keyed by
the Prisma unique keys, a Prisma `$transaction` is modelled as an
`Except`-valued state transformer (an error aborts the transaction, so the
caller observes the pre-transaction state), and `Decimal` / JS-number
arithmetic is modelled by exact rationals.
-/

namespace Exch

/-- Generic association-list lookup (the embedding of `findUnique` on a
table whose rows are keyed by `κ`). -/
def alookup {κ α : Type} [DecidableEq κ] : List (κ × α) → κ → Option α
  | [], _ => none
  | p :: t, k => if p.1 = k then some p.2 else alookup t k

/-- Generic association-list update (the embedding of `update` /
`updateMany` restricted to the rows with key `k`). -/
def aupdate {κ α : Type} [DecidableEq κ] : List (κ × α) → κ → (α → α) → List (κ × α)
  | [], _, _ => []
  | p :: t, k, f => (if p.1 = k then (p.1, f p.2) else p) :: aupdate t k f

/-- Generic association-list deletion (the embedding of `delete`). -/
def aerase {κ α : Type} [DecidableEq κ] : List (κ × α) → κ → List (κ × α)
  | [], _ => []
  | p :: t, k => if p.1 = k then aerase t k else p :: aerase t k

theorem alookup_aupdate_self {κ α : Type} [DecidableEq κ]
    (l : List (κ × α)) (k : κ) (f : α → α) :
    alookup (aupdate l k f) k = (alookup l k).map f := by
  induction l with
  | nil => rfl
  | cons p t ih =>
    by_cases h : p.1 = k
    · simp [alookup, aupdate, h]
    · simpa [alookup, aupdate, h] using ih

theorem alookup_aupdate_ne {κ α : Type} [DecidableEq κ]
    (l : List (κ × α)) (k k' : κ) (f : α → α) (hne : k' ≠ k) :
    alookup (aupdate l k f) k' = alookup l k' := by
  induction l with
  | nil => rfl
  | cons p t ih =>
    have hk : k ≠ k' := fun hc => hne hc.symm
    by_cases h : p.1 = k
    · simpa [alookup, aupdate, h, hk] using ih
    · by_cases h2 : p.1 = k'
      · simp [alookup, aupdate, h, h2, hk, hne]
      · simpa [alookup, aupdate, h, h2, hk, hne] using ih

theorem mem_aupdate {κ α : Type} [DecidableEq κ]
    {l : List (κ × α)} {k : κ} {f : α → α} {p : κ × α}
    (hp : p ∈ aupdate l k f) :
    p ∈ l ∨ ∃ a, (k, a) ∈ l ∧ p = (k, f a) := by
  induction l with
  | nil => cases hp
  | cons q t ih =>
    by_cases h : q.1 = k
    · rcases List.mem_cons.1 (by simpa [aupdate, h] using hp) with h1 | h1
      · right
        exact ⟨q.2, by simp [← h], h1⟩
      · rcases ih h1 with h2 | ⟨a, ha, hpa⟩
        · exact Or.inl (List.mem_cons_of_mem _ h2)
        · exact Or.inr ⟨a, List.mem_cons_of_mem _ ha, hpa⟩
    · rcases List.mem_cons.1 (by simpa [aupdate, h] using hp) with h1 | h1
      · exact Or.inl (by simp [h1])
      · rcases ih h1 with h2 | ⟨a, ha, hpa⟩
        · exact Or.inl (List.mem_cons_of_mem _ h2)
        · exact Or.inr ⟨a, List.mem_cons_of_mem _ ha, hpa⟩

theorem keys_aupdate {κ α : Type} [DecidableEq κ]
    (l : List (κ × α)) (k : κ) (f : α → α) :
    (aupdate l k f).map Prod.fst = l.map Prod.fst := by
  induction l with
  | nil => rfl
  | cons p t ih =>
    by_cases h : p.1 = k <;> simp [aupdate, h, ih]

theorem alookup_eq_of_mem_nodup {κ α : Type} [DecidableEq κ]
    {l : List (κ × α)} {k : κ} {a : α}
    (hnd : (l.map Prod.fst).Nodup) (hmem : (k, a) ∈ l) :
    alookup l k = some a := by
  induction l with
  | nil => cases hmem
  | cons p t ih =>
    rcases List.mem_cons.1 hmem with h | h
    · simp [alookup, ← h]
    · have hk : p.1 ≠ k := by
        intro hc
        have : p.1 ∈ t.map Prod.fst := by
          rw [hc]; exact List.mem_map.2 ⟨(k, a), h, rfl⟩
        exact (List.nodup_cons.1 (by simpa using hnd)).1 this
      have hnd' : (t.map Prod.fst).Nodup := (List.nodup_cons.1 (by simpa using hnd)).2
      simpa [alookup, hk] using ih hnd' h

theorem mem_of_mem_aerase {κ α : Type} [DecidableEq κ]
    {l : List (κ × α)} {k : κ} {p : κ × α} (hp : p ∈ aerase l k) : p ∈ l := by
  induction l with
  | nil => cases hp
  | cons q t ih =>
    by_cases h : q.1 = k
    · exact List.mem_cons_of_mem _ (ih (by simpa [aerase, h] using hp))
    · rcases List.mem_cons.1 (by simpa [aerase, h] using hp) with h1 | h1
      · simp [h1]
      · exact List.mem_cons_of_mem _ (ih h1)

theorem aerase_sublist {κ α : Type} [DecidableEq κ]
    (l : List (κ × α)) (k : κ) : (aerase l k).Sublist l := by
  induction l with
  | nil => simp [aerase]
  | cons q t ih =>
    by_cases h : q.1 = k
    · simpa [aerase, h] using ih.cons q
    · simpa [aerase, h] using ih.cons₂ q

theorem nodup_keys_aerase {κ α : Type} [DecidableEq κ]
    {l : List (κ × α)} (k : κ) (hnd : (l.map Prod.fst).Nodup) :
    ((aerase l k).map Prod.fst).Nodup :=
  ((aerase_sublist l k).map Prod.fst).nodup hnd

/-- `OrderType` enum of the Prisma schema. -/
inductive OrderType where
  | BUY
  | SELL
deriving DecidableEq, Repr

/-- `OrderMethod` enum of the Prisma schema. -/
inductive OrderMethod where
  | LIMIT
  | MARKET
deriving DecidableEq, Repr

/-- `OrderStatus` enum of the Prisma schema. -/
inductive OrderStatus where
  | PENDING
  | OPEN
  | PARTIALLY_FILLED
  | FILLED
  | CANCELLED
deriving DecidableEq, Repr

/-- A `users` row, restricted to the ledger fields: `balance` and
`frozenBalance` (both `Decimal` in the schema, modelled as `ℚ`). -/
structure Account where
  balance : ℚ
  frozenBalance : ℚ
deriving DecidableEq, Repr

/-- A `positions` row (unique key `(userId, symbol)`): `quantity`,
`frozenQuantity` (both `Int`) and `avgPrice` (`Decimal`). -/
structure Position where
  quantity : ℤ
  frozenQuantity : ℤ
  avgPrice : ℚ
deriving DecidableEq, Repr

/-- An `orders` row.  `price` is `null` exactly for `MARKET` orders, so it is
an `Option ℚ`; `frozenAmount` and `actualUsedAmount` are the per-order cash
reservation bookkeeping fields used by `OrderService`. -/
structure Order where
  id : ℕ
  userId : ℕ
  symbol : String
  type : OrderType
  method : OrderMethod
  price : Option ℚ
  quantity : ℤ
  filledQuantity : ℤ
  avgFilledPrice : Option ℚ
  status : OrderStatus
  frozenAmount : ℚ
  actualUsedAmount : ℚ
  createdAt : ℕ
deriving DecidableEq, Repr

/-- A `trades` row.  `buyUserId`, `sellUserId` and `symbol` are the fields
reached in the source through the `buyOrder` / `sellOrder` relations (the
rows the trade is created from); they are denormalised here so that the
relation join of the Prisma queries is a plain field access. -/
structure Trade where
  id : ℕ
  buyOrderId : ℕ
  sellOrderId : ℕ
  buyUserId : ℕ
  sellUserId : ℕ
  price : ℚ
  quantity : ℤ
  symbol : String
deriving DecidableEq, Repr

/-- The database state visible to the embedded services.  `nextOrderId` and
`nextTradeId` model the autoincrement sequences; `trades` is kept in
execution order, so the last element is the most recent (`executedAt desc`
picks it). -/
structure ExchangeState where
  users : List (ℕ × Account)
  positions : List ((ℕ × String) × Position)
  orders : List Order
  trades : List Trade
  nextOrderId : ℕ
  nextTradeId : ℕ
deriving DecidableEq, Repr

/-- `prisma.user.findUnique({ where: { id } })`. -/
def findUser (s : ExchangeState) (userId : ℕ) : Option Account :=
  alookup s.users userId

/-- `prisma.position.findUnique({ where: { userId_symbol } })`. -/
def findPos (s : ExchangeState) (userId : ℕ) (symbol : String) : Option Position :=
  alookup s.positions (userId, symbol)

/-- `prisma.order.findUnique({ where: { id } })`. -/
def findOrder : List Order → ℕ → Option Order
  | [], _ => none
  | o :: t, orderId => if o.id = orderId then some o else findOrder t orderId

/-- Update the single user row with the given id (`prisma.user.update`). -/
def updUser (s : ExchangeState) (userId : ℕ) (f : Account → Account) : ExchangeState :=
  { s with users := aupdate s.users userId f }

/-- Update the single position row with the given key (`prisma.position.update`). -/
def updPos (s : ExchangeState) (userId : ℕ) (symbol : String) (f : Position → Position) :
    ExchangeState :=
  { s with positions := aupdate s.positions (userId, symbol) f }

/-- Update the order row with the given id (`prisma.order.update`). -/
def updOrder (s : ExchangeState) (orderId : ℕ) (f : Order → Order) : ExchangeState :=
  { s with orders := s.orders.map (fun o => if o.id = orderId then f o else o) }

/-- The user's frozen cash as observed through optional chaining
(`user?.frozenBalance?.toNumber() || 0`). -/
def userFrozen (s : ExchangeState) (userId : ℕ) : ℚ :=
  ((findUser s userId).map (·.frozenBalance)).getD 0

/-- The user's total cash as observed through optional chaining. -/
def userBalance (s : ExchangeState) (userId : ℕ) : ℚ :=
  ((findUser s userId).map (·.balance)).getD 0

/-- The position's frozen share count as observed through optional chaining
(`position?.frozenQuantity || 0`). -/
def posFrozen (s : ExchangeState) (userId : ℕ) (symbol : String) : ℤ :=
  ((findPos s userId symbol).map (·.frozenQuantity)).getD 0

/-- The position's total share count as observed through optional chaining. -/
def posQuantity (s : ExchangeState) (userId : ℕ) (symbol : String) : ℤ :=
  ((findPos s userId symbol).map (·.quantity)).getD 0

theorem findUser_updUser_self (s : ExchangeState) (uid : ℕ) (f : Account → Account) :
    findUser (updUser s uid f) uid = (findUser s uid).map f :=
  alookup_aupdate_self s.users uid f

theorem findUser_updUser_ne (s : ExchangeState) (uid uid' : ℕ) (f : Account → Account)
    (h : uid' ≠ uid) : findUser (updUser s uid f) uid' = findUser s uid' :=
  alookup_aupdate_ne s.users uid uid' f h

theorem findPos_updPos_self (s : ExchangeState) (uid : ℕ) (sym : String)
    (f : Position → Position) :
    findPos (updPos s uid sym f) uid sym = (findPos s uid sym).map f :=
  alookup_aupdate_self s.positions (uid, sym) f

theorem findPos_updPos_ne (s : ExchangeState) (uid uid' : ℕ) (sym sym' : String)
    (f : Position → Position) (h : (uid', sym') ≠ (uid, sym)) :
    findPos (updPos s uid sym f) uid' sym' = findPos s uid' sym' :=
  alookup_aupdate_ne s.positions (uid, sym) (uid', sym') f h

/-- `UserService.adjustFrozenBalance` (the unified frozen-cash adjustment):
rejects a zero change, a missing user, a new frozen balance below zero or
above the total balance, and performs the guarded conditional
`updateMany { frozenBalance: { increment } }`. -/
def adjustFrozenBalance (s : ExchangeState) (userId : ℕ) (amountChange : ℚ) :
    Except String ExchangeState :=
  if amountChange = 0 then .error "amount change must not be zero"
  else
    match findUser s userId with
    | none => .error "user not found"
    | some user =>
      if user.frozenBalance + amountChange < 0 then
        .error "insufficient frozen balance"
      else if user.balance < user.frozenBalance + amountChange then
        .error "frozen balance cannot exceed balance"
      else if (if 0 < amountChange then user.frozenBalance + amountChange ≤ user.balance
               else |amountChange| ≤ user.frozenBalance) then
        .ok (updUser s userId (fun u => { u with frozenBalance := u.frozenBalance + amountChange }))
      else .error "conditional update matched no row"

/-- `UserService.freezeBalance`: positive-amount guard, then
`adjustFrozenBalance` with a positive change. -/
def freezeBalance (s : ExchangeState) (userId : ℕ) (amount : ℚ) :
    Except String ExchangeState :=
  if amount ≤ 0 then .error "freeze amount must be positive"
  else adjustFrozenBalance s userId amount

/-- `UserService.unfreezeBalance`: positive-amount guard, then
`adjustFrozenBalance` with a negative change. -/
def unfreezeBalance (s : ExchangeState) (userId : ℕ) (amount : ℚ) :
    Except String ExchangeState :=
  if amount ≤ 0 then .error "unfreeze amount must be positive"
  else adjustFrozenBalance s userId (-amount)

/-- `UserService.payBalance`: spend from the frozen balance, decrementing
both `balance` and `frozenBalance` after checking the frozen balance covers
the amount. -/
def payBalance (s : ExchangeState) (userId : ℕ) (amount : ℚ) :
    Except String ExchangeState :=
  if amount ≤ 0 then .error "pay amount must be positive"
  else
    match findUser s userId with
    | none => .error "user not found"
    | some user =>
      if user.frozenBalance < amount then .error "insufficient frozen balance"
      else
        .ok (updUser s userId (fun u =>
          { u with balance := u.balance - amount, frozenBalance := u.frozenBalance - amount }))

/-- `UserService.adjustFrozenQuantity` (the unified frozen-share adjustment):
rejects a zero change, a missing position, a new frozen quantity below zero
or above the total quantity, and performs the guarded conditional update. -/
def adjustFrozenQuantity (s : ExchangeState) (userId : ℕ) (symbol : String)
    (quantityChange : ℤ) : Except String ExchangeState :=
  if quantityChange = 0 then .error "quantity change must not be zero"
  else
    match findPos s userId symbol with
    | none => .error "no position for symbol"
    | some position =>
      if position.frozenQuantity + quantityChange < 0 then
        .error "insufficient frozen quantity"
      else if position.quantity < position.frozenQuantity + quantityChange then
        .error "frozen quantity cannot exceed quantity"
      else if (if 0 < quantityChange then
                 position.frozenQuantity + quantityChange ≤ position.quantity
               else |quantityChange| ≤ position.frozenQuantity) then
        .ok (updPos s userId symbol (fun p =>
          { p with frozenQuantity := p.frozenQuantity + quantityChange }))
      else .error "conditional update matched no row"

/-- `UserService.freezePositionWithTx`: positive-quantity guard, then
`adjustFrozenQuantity` with a positive change. -/
def freezePositionWithTx (s : ExchangeState) (userId : ℕ) (symbol : String)
    (quantity : ℤ) : Except String ExchangeState :=
  if quantity ≤ 0 then .error "freeze quantity must be positive"
  else adjustFrozenQuantity s userId symbol quantity

/-- `UserService.unfreezePosition`: positive-quantity guard, then
`adjustFrozenQuantity` with a negative change. -/
def unfreezePosition (s : ExchangeState) (userId : ℕ) (symbol : String)
    (quantity : ℤ) : Except String ExchangeState :=
  if quantity ≤ 0 then .error "unfreeze quantity must be positive"
  else adjustFrozenQuantity s userId symbol (-quantity)

/-- `UserService.deductFromFrozenPosition`: positive-quantity guard, then
`adjustFrozenQuantity` with a negative change (used on a fill). -/
def deductFromFrozenPosition (s : ExchangeState) (userId : ℕ) (symbol : String)
    (quantity : ℤ) : Except String ExchangeState :=
  if quantity ≤ 0 then .error "deduct quantity must be positive"
  else adjustFrozenQuantity s userId symbol (-quantity)

/-- `UserService.sellPosition`: settle a sale out of the frozen shares,
decrementing `quantity` and `frozenQuantity` together and deleting the row
when the total quantity reaches zero. -/
def sellPosition (s : ExchangeState) (userId : ℕ) (symbol : String)
    (sellQuantity : ℤ) : Except String ExchangeState :=
  if sellQuantity ≤ 0 then .error "sell quantity must be positive"
  else
    match findPos s userId symbol with
    | none => .error "no position for symbol"
    | some existingPosition =>
      if min sellQuantity existingPosition.frozenQuantity ≤ 0 then
        .error "insufficient frozen position"
      else
        if 0 < existingPosition.quantity - min sellQuantity existingPosition.frozenQuantity then
          .ok (updPos s userId symbol (fun p =>
            { p with
              quantity := existingPosition.quantity - min sellQuantity existingPosition.frozenQuantity,
              frozenQuantity := existingPosition.frozenQuantity - min sellQuantity existingPosition.frozenQuantity }))
        else
          .ok { s with positions := aerase s.positions (userId, symbol) }

/-- `UserService.getAvailableBalance`: `max 0 (balance - frozenBalance)`,
failing when the user does not exist. -/
def getAvailableBalance (s : ExchangeState) (userId : ℕ) : Except String ℚ :=
  match findUser s userId with
  | none => .error "user not found"
  | some user => .ok (max 0 (user.balance - user.frozenBalance))

/-- `UserService.getAvailablePosition`: `max 0 (quantity - frozenQuantity)`,
`0` when there is no position row. -/
def getAvailablePosition (s : ExchangeState) (userId : ℕ) (symbol : String) : ℤ :=
  match findPos s userId symbol with
  | none => 0
  | some position => max 0 (position.quantity - position.frozenQuantity)

/-- `NegativeDetectionService.checkUserBalance`: `false` when the user is
missing or either cash field is negative. -/
def checkUserBalance (s : ExchangeState) (userId : ℕ) : Bool :=
  match findUser s userId with
  | none => false
  | some user => decide (0 ≤ user.balance) && decide (0 ≤ user.frozenBalance)

/-- `NegativeDetectionService.checkUserPosition`: `true` when there is no
row; otherwise `false` when any of quantity, frozen quantity or available
quantity is negative. -/
def checkUserPosition (s : ExchangeState) (userId : ℕ) (symbol : String) : Bool :=
  match findPos s userId symbol with
  | none => true
  | some p =>
      decide (0 ≤ p.quantity) && decide (0 ≤ p.frozenQuantity) &&
        decide (0 ≤ p.quantity - p.frozenQuantity)

/-- The seller-side raw balance increment performed inside
`OrderService.updateUserBalances` (`db.user.update { balance: { increment } }`;
Prisma raises when the row is missing). -/
def creditBalance (s : ExchangeState) (userId : ℕ) (amount : ℚ) :
    Except String ExchangeState :=
  match findUser s userId with
  | none => .error "user not found"
  | some _ => .ok (updUser s userId (fun u => { u with balance := u.balance + amount }))

theorem adjustFrozenBalance_ok {s s' : ExchangeState} {uid : ℕ} {δ : ℚ}
    (h : adjustFrozenBalance s uid δ = .ok s') :
    ∃ u, findUser s uid = some u ∧ δ ≠ 0 ∧
      0 ≤ u.frozenBalance + δ ∧ u.frozenBalance + δ ≤ u.balance ∧
      s' = updUser s uid (fun a => { a with frozenBalance := a.frozenBalance + δ }) := by
  unfold adjustFrozenBalance at h
  split at h
  · cases h
  · rename_i hz
    split at h
    · cases h
    · rename_i u hu
      split at h
      · cases h
      · rename_i h1
        split at h
        · cases h
        · rename_i h2
          split at h
          · split at h
            · exact ⟨u, hu, hz, by linarith, by linarith, (Except.ok.inj h).symm⟩
            · cases h
          · split at h
            · exact ⟨u, hu, hz, by linarith, by linarith, (Except.ok.inj h).symm⟩
            · cases h

theorem payBalance_ok {s s' : ExchangeState} {uid : ℕ} {a : ℚ}
    (h : payBalance s uid a = .ok s') :
    ∃ u, findUser s uid = some u ∧ 0 < a ∧ a ≤ u.frozenBalance ∧
      s' = updUser s uid (fun x =>
        { x with balance := x.balance - a, frozenBalance := x.frozenBalance - a }) := by
  unfold payBalance at h
  split at h
  · cases h
  · rename_i ha
    split at h
    · cases h
    · rename_i u hu
      split at h
      · cases h
      · rename_i hf
        exact ⟨u, hu, by linarith, by linarith, (Except.ok.inj h).symm⟩

theorem adjustFrozenQuantity_ok {s s' : ExchangeState} {uid : ℕ} {sym : String} {δ : ℤ}
    (h : adjustFrozenQuantity s uid sym δ = .ok s') :
    ∃ p, findPos s uid sym = some p ∧ δ ≠ 0 ∧
      0 ≤ p.frozenQuantity + δ ∧ p.frozenQuantity + δ ≤ p.quantity ∧
      s' = updPos s uid sym (fun q =>
        { q with frozenQuantity := q.frozenQuantity + δ }) := by
  unfold adjustFrozenQuantity at h
  split at h
  · cases h
  · rename_i hz
    split at h
    · cases h
    · rename_i p hp
      split at h
      · cases h
      · rename_i h1
        split at h
        · cases h
        · rename_i h2
          split at h
          · split at h
            · exact ⟨p, hp, hz, by linarith, by linarith, (Except.ok.inj h).symm⟩
            · cases h
          · split at h
            · exact ⟨p, hp, hz, by linarith, by linarith, (Except.ok.inj h).symm⟩
            · cases h

theorem sellPosition_ok {s s' : ExchangeState} {uid : ℕ} {sym : String} {q : ℤ}
    (h : sellPosition s uid sym q = .ok s') :
    ∃ p, findPos s uid sym = some p ∧ 0 < q ∧ 0 < min q p.frozenQuantity ∧
      ((0 < p.quantity - min q p.frozenQuantity ∧
        s' = updPos s uid sym (fun x =>
          { x with quantity := p.quantity - min q p.frozenQuantity,
                   frozenQuantity := p.frozenQuantity - min q p.frozenQuantity })) ∨
       (p.quantity - min q p.frozenQuantity ≤ 0 ∧
        s' = { s with positions := aerase s.positions (uid, sym) })) := by
  unfold sellPosition at h
  split at h
  · cases h
  · rename_i hq
    split at h
    · cases h
    · rename_i p hp
      split at h
      · cases h
      · rename_i hmin
        split at h
        · rename_i hpos
          exact ⟨p, hp, by linarith, by linarith, Or.inl ⟨hpos, (Except.ok.inj h).symm⟩⟩
        · rename_i hpos
          exact ⟨p, hp, by linarith, by linarith, Or.inr ⟨by linarith, (Except.ok.inj h).symm⟩⟩

theorem creditBalance_ok {s s' : ExchangeState} {uid : ℕ} {a : ℚ}
    (h : creditBalance s uid a = .ok s') :
    ∃ u, findUser s uid = some u ∧
      s' = updUser s uid (fun x => { x with balance := x.balance + a }) := by
  unfold creditBalance at h
  split at h
  · cases h
  · rename_i u hu
    exact ⟨u, hu, (Except.ok.inj h).symm⟩

/-- The `oppositeType` computed at the top of `OrderService.matchOrder`. -/
def oppositeOf : OrderType → OrderType
  | .BUY => .SELL
  | .SELL => .BUY

/-- The `status: { in: [OPEN, PARTIALLY_FILLED] }` filter of the book query. -/
def isResting (o : Order) : Bool :=
  decide (o.status = .OPEN) || decide (o.status = .PARTIALLY_FILLED)

/-- The `price: { lte | gte: newOrder.price }` condition added to the book
query for an incoming LIMIT order (a SQL comparison against a NULL resting
price selects nothing). -/
def priceMatches (n o : Order) : Bool :=
  match o.price, n.price with
  | some p, some lp => if n.type = .BUY then decide (p ≤ lp) else decide (lp ≤ p)
  | _, _ => false

/-- The full `whereCondition` of the book query in `matchOrder`: same symbol,
opposite side, non-terminal status, not the submitting user, and the price
relation for LIMIT incoming orders. -/
def codeEligible (n o : Order) : Bool :=
  decide (o.symbol = n.symbol) && decide (o.type = oppositeOf n.type) &&
    isResting o && decide (o.userId ≠ n.userId) &&
    (if n.method = .LIMIT then priceMatches n o else true)

/-- The candidate set exactly as the claim words it: the claim omits the
`userId: { not: newOrder.userId }` exclusion that the code adds. -/
def claimEligible (n o : Order) : Bool :=
  decide (o.symbol = n.symbol) && decide (o.type = oppositeOf n.type) &&
    isResting o &&
    (if n.method = .LIMIT then priceMatches n o else true)

/-- Sort key for the `orderBy: [{ price: asc | desc }]` clause.  A concrete
price maps to itself (negated for the descending SELL-side ordering); a NULL
price sorts after every value ascending and before every value descending
(PostgreSQL NULL ordering). -/
def priceKey (t : OrderType) : Option ℚ → ℤ ×ₗ ℚ
  | some p => toLex (0, if t = .BUY then p else -p)
  | none => toLex ((if t = .BUY then 1 else -1 : ℤ), 0)

/-- Full sort key of the book query: price first, then `createdAt` asc. -/
def bookKey (t : OrderType) (o : Order) : (ℤ ×ₗ ℚ) ×ₗ ℕ :=
  toLex (priceKey t o.price, o.createdAt)

/-- The iteration order of the fetched candidates: best price first, ties
broken by earliest `createdAt`. -/
def bookRel (t : OrderType) (a b : Order) : Prop :=
  bookKey t a ≤ bookKey t b

instance (t : OrderType) : DecidableRel (bookRel t) := fun a b => by
  unfold bookRel; infer_instance

instance (t : OrderType) : IsTotal Order (bookRel t) :=
  ⟨fun a b => le_total (bookKey t a) (bookKey t b)⟩

instance (t : OrderType) : IsTrans Order (bookRel t) :=
  ⟨fun _ _ _ hab hbc => le_trans hab hbc⟩

/-- The book query of `matchOrder`: `prisma.order.findMany` with
`whereCondition`, ordered by price (ascending for an incoming BUY,
descending for an incoming SELL) and then by `createdAt` ascending. -/
def fetchOppositeOrders (s : ExchangeState) (n : Order) : List Order :=
  List.insertionSort (bookRel n.type) (s.orders.filter (codeEligible n))

theorem mem_fetchOppositeOrders (s : ExchangeState) (n o : Order) :
    o ∈ fetchOppositeOrders s n ↔ o ∈ s.orders ∧ codeEligible n o = true := by
  unfold fetchOppositeOrders
  rw [List.mem_insertionSort, List.mem_filter]

theorem sorted_fetchOppositeOrders (s : ExchangeState) (n : Order) :
    List.Sorted (bookRel n.type) (fetchOppositeOrders s n) :=
  List.sorted_insertionSort (bookRel n.type) _

theorem bookRel_buy_iff (a b : Order) (pa pb : ℚ)
    (ha : a.price = some pa) (hb : b.price = some pb) :
    bookRel .BUY a b ↔ (pa < pb ∨ (pa = pb ∧ a.createdAt ≤ b.createdAt)) := by
  simp only [bookRel, bookKey, priceKey, ha, hb, if_pos rfl]
  rw [Prod.Lex.le_iff, Prod.Lex.lt_iff]
  constructor
  · rintro (h | h)
    · rcases h with h | ⟨-, h⟩
      · exact absurd h (lt_irrefl 0)
      · exact Or.inl h
    · rcases h with ⟨h1, h2⟩
      have := (Prod.ext_iff.1 (ofLex_inj.2 h1)).2
      exact Or.inr ⟨this, h2⟩
  · rintro (h | ⟨h1, h2⟩)
    · exact Or.inl (Or.inr ⟨rfl, h⟩)
    · exact Or.inr ⟨by rw [h1], h2⟩

theorem bookRel_sell_iff (a b : Order) (pa pb : ℚ)
    (ha : a.price = some pa) (hb : b.price = some pb) :
    bookRel .SELL a b ↔ (pb < pa ∨ (pa = pb ∧ a.createdAt ≤ b.createdAt)) := by
  simp only [bookRel, bookKey, priceKey, ha, hb]
  rw [if_neg (by decide), if_neg (by decide), Prod.Lex.le_iff, Prod.Lex.lt_iff]
  constructor
  · rintro (h | h)
    · rcases h with h | ⟨-, h⟩
      · exact absurd h (lt_irrefl 0)
      · have h' : (-pa : ℚ) < -pb := h
        exact Or.inl (by linarith)
    · rcases h with ⟨h1, h2⟩
      have h3 : (-pa : ℚ) = -pb := (Prod.ext_iff.1 (ofLex_inj.2 h1)).2
      exact Or.inr ⟨by linarith, h2⟩
  · rintro (h | ⟨h1, h2⟩)
    · refine Or.inl (Or.inr ⟨rfl, ?_⟩)
      show (-pa : ℚ) < -pb
      linarith
    · exact Or.inr ⟨by rw [h1], h2⟩

/-- `Math.round(x * 100) / 100` — JS `Math.round` rounds half toward
positive infinity, which is exactly Mathlib's `round`. -/
def round2 (q : ℚ) : ℚ := (round (q * 100) : ℤ) / 100

/-- The most recent trade touching the symbol
(`prisma.trade.findFirst({ where: { OR: [{ buyOrder: { symbol } }, { sellOrder: { symbol } }] }, orderBy: { executedAt: desc } })`).
Trades are appended in execution order, so the last match is the newest. -/
def recentTradePrice (s : ExchangeState) (symbol : String) : Option ℚ :=
  ((s.trades.filter (fun t => decide (t.symbol = symbol))).getLast?).map (·.price)

/-- The fill-price determination inside `matchOrder`: both sides MARKET use
the most recent trade price, or the default 150 when none exists; an
incoming MARKET takes the resting price; a resting MARKET takes the incoming
price; LIMIT against LIMIT takes the resting price.  The result is rounded
to 2 decimals.  Dereferencing a NULL price (impossible for LIMIT rows)
would raise a `TypeError` and abort the transaction, modelled as an error. -/
def determineTradePrice (s : ExchangeState) (n opp : Order) : Except String ℚ :=
  if n.method = .MARKET ∧ opp.method = .MARKET then
    match recentTradePrice s n.symbol with
    | some p => .ok (round2 p)
    | none => .ok (round2 150)
  else if n.method = .MARKET then
    match opp.price with
    | some p => .ok (round2 p)
    | none => .error "null price on resting order"
  else if opp.method = .MARKET then
    match n.price with
    | some p => .ok (round2 p)
    | none => .error "null price on incoming order"
  else
    match opp.price with
    | some p => .ok (round2 p)
    | none => .error "null price on resting order"

/-- The per-symbol current-minute candle accumulator of `KlineService`
(`open/high/low/close/volume/timestamp`; `open` is a Lean keyword, hence
`openPrice`). -/
structure MinuteData where
  openPrice : ℚ
  high : ℚ
  low : ℚ
  close : ℚ
  volume : ℤ
  timestamp : ℕ
deriving DecidableEq, Repr

/-- `KlineService.handlePriceUpdate` restricted to the current-minute
accumulator: aligns the timestamp to the minute, updates the accumulator in
place for the same minute, otherwise opens a fresh accumulator and pushes
the previous one to the pending-save queue (returned as the second
component). -/
def handlePriceUpdate (cur : Option MinuteData) (price : ℚ) (volume : ℤ)
    (timestampMs : ℕ) : MinuteData × Option MinuteData :=
  let minuteTimestamp := timestampMs / 60000 * 60000
  match cur with
  | some md =>
    if md.timestamp = minuteTimestamp then
      ({ md with high := max md.high price, low := min md.low price,
                 close := price, volume := md.volume + volume }, none)
    else
      ({ openPrice := price, high := price, low := price, close := price,
         volume := volume, timestamp := minuteTimestamp },
       if md.timestamp < minuteTimestamp then some md else none)
  | none =>
    ({ openPrice := price, high := price, low := price, close := price,
       volume := volume, timestamp := minuteTimestamp }, none)

/-- One batch-trade job as enqueued by `matchOrder`
(`BatchTradeProcessingData`): the executed trades in order as
(price, quantity) pairs, the total filled volume, and the timestamp. -/
structure TradeBatch where
  trades : List (ℚ × ℤ)
  totalVolume : ℤ
  timestamp : ℕ
deriving DecidableEq, Repr

/-- `TradeProcessor.processBatchTrade` reduces a whole batch to a single
price update for the candle builder: the LAST trade's price paired with the
batch's TOTAL volume (`price: lastTrade.price, volume: totalVolume`). -/
def batchToPriceUpdate (b : TradeBatch) : Option (ℚ × ℤ × ℕ) :=
  b.trades.getLast?.map (fun t => (t.1, b.totalVolume, b.timestamp))

/-- Feed one batch through `processBatchTrade` into the candle accumulator. -/
def applyBatch (cur : Option MinuteData) (b : TradeBatch) : Option MinuteData :=
  match batchToPriceUpdate b with
  | none => cur
  | some (price, volume, ts) => some (handlePriceUpdate cur price volume ts).1

/-- Feed a sequence of batch-trade jobs through the pipeline. -/
def applyBatches (cur : Option MinuteData) (bs : List TradeBatch) : Option MinuteData :=
  bs.foldl applyBatch cur

/-- A sequence of trades delivered one price update per trade: each matching
run produced exactly one trade, so each batch holds a single trade and its
total volume is that trade's quantity. -/
def singleTradeBatches (ts : ℕ) (trades : List (ℚ × ℤ)) : List TradeBatch :=
  trades.map (fun t => { trades := [t], totalVolume := t.2, timestamp := ts })

/-- The same-minute update step of `handlePriceUpdate`, as applied to each
price update whose minute matches the accumulator. -/
def accumulateTrade (md : MinuteData) (t : ℚ × ℤ) : MinuteData :=
  { md with high := max md.high t.1, low := min md.low t.1,
            close := t.1, volume := md.volume + t.2 }

theorem applyBatches_singleTrade (ts : ℕ) (l : List (ℚ × ℤ)) (md : MinuteData)
    (h : md.timestamp = ts / 60000 * 60000) :
    applyBatches (some md) (singleTradeBatches ts l) = some (l.foldl accumulateTrade md) := by
  induction l generalizing md with
  | nil => rfl
  | cons t rest ih =>
    have step : applyBatch (some md)
        { trades := [t], totalVolume := t.2, timestamp := ts } =
        some (accumulateTrade md t) := by
      simp [applyBatch, batchToPriceUpdate, handlePriceUpdate, h, accumulateTrade]
    have hts : (accumulateTrade md t).timestamp = ts / 60000 * 60000 := h
    calc applyBatches (some md) (singleTradeBatches ts (t :: rest))
        = applyBatches (applyBatch (some md)
            { trades := [t], totalVolume := t.2, timestamp := ts })
            (singleTradeBatches ts rest) := rfl
      _ = applyBatches (some (accumulateTrade md t)) (singleTradeBatches ts rest) := by
            rw [step]
      _ = some (rest.foldl accumulateTrade (accumulateTrade md t)) := ih _ hts
      _ = some ((t :: rest).foldl accumulateTrade md) := rfl

theorem foldl_accumulateTrade_openPrice (l : List (ℚ × ℤ)) (md : MinuteData) :
    (l.foldl accumulateTrade md).openPrice = md.openPrice := by
  induction l generalizing md with
  | nil => rfl
  | cons t rest ih => simpa [accumulateTrade] using ih (accumulateTrade md t)

theorem foldl_accumulateTrade_volume (l : List (ℚ × ℤ)) (md : MinuteData) :
    (l.foldl accumulateTrade md).volume = md.volume + (l.map (·.2)).sum := by
  induction l generalizing md with
  | nil => simp
  | cons t rest ih =>
    rw [List.foldl_cons, ih (accumulateTrade md t)]
    simp [accumulateTrade, add_assoc]

theorem foldl_accumulateTrade_close (l : List (ℚ × ℤ)) (md : MinuteData) :
    (l.foldl accumulateTrade md).close = (l.map (·.1)).getLastD md.close := by
  induction l generalizing md with
  | nil => rfl
  | cons t rest ih =>
    rw [List.foldl_cons, ih (accumulateTrade md t), List.map_cons, List.getLastD_cons]
    rfl

theorem foldl_accumulateTrade_high_ub (l : List (ℚ × ℤ)) (md : MinuteData) :
    md.high ≤ (l.foldl accumulateTrade md).high ∧
      ∀ t ∈ l, t.1 ≤ (l.foldl accumulateTrade md).high := by
  induction l generalizing md with
  | nil => exact ⟨le_refl _, by simp⟩
  | cons t rest ih =>
    rcases ih (accumulateTrade md t) with ⟨h1, h2⟩
    have hmd : md.high ≤ (accumulateTrade md t).high := le_max_left _ _
    have hts : t.1 ≤ (accumulateTrade md t).high := le_max_right _ _
    refine ⟨le_trans hmd h1, ?_⟩
    intro u hu
    rcases List.mem_cons.1 hu with h | h
    · rw [h]; exact le_trans hts h1
    · exact h2 u h

theorem foldl_accumulateTrade_high_mem (l : List (ℚ × ℤ)) (md : MinuteData) :
    (l.foldl accumulateTrade md).high = md.high ∨
      (l.foldl accumulateTrade md).high ∈ l.map (·.1) := by
  induction l generalizing md with
  | nil => exact Or.inl rfl
  | cons t rest ih =>
    rcases ih (accumulateTrade md t) with h | h
    · rw [List.foldl_cons, h]
      rcases max_choice md.high t.1 with h2 | h2
      · exact Or.inl h2
      · refine Or.inr ?_
        rw [List.map_cons]
        rw [show (accumulateTrade md t).high = t.1 from h2]
        exact List.mem_cons_self _ _
    · rw [List.foldl_cons]
      rw [List.map_cons]
      exact Or.inr (List.mem_cons_of_mem _ h)

theorem foldl_accumulateTrade_low_lb (l : List (ℚ × ℤ)) (md : MinuteData) :
    (l.foldl accumulateTrade md).low ≤ md.low ∧
      ∀ t ∈ l, (l.foldl accumulateTrade md).low ≤ t.1 := by
  induction l generalizing md with
  | nil => exact ⟨le_refl _, by simp⟩
  | cons t rest ih =>
    rcases ih (accumulateTrade md t) with ⟨h1, h2⟩
    have hmd : (accumulateTrade md t).low ≤ md.low := min_le_left _ _
    have hts : (accumulateTrade md t).low ≤ t.1 := min_le_right _ _
    refine ⟨le_trans h1 hmd, ?_⟩
    intro u hu
    rcases List.mem_cons.1 hu with h | h
    · rw [h]; exact le_trans h1 hts
    · exact h2 u h

theorem foldl_accumulateTrade_low_mem (l : List (ℚ × ℤ)) (md : MinuteData) :
    (l.foldl accumulateTrade md).low = md.low ∨
      (l.foldl accumulateTrade md).low ∈ l.map (·.1) := by
  induction l generalizing md with
  | nil => exact Or.inl rfl
  | cons t rest ih =>
    rcases ih (accumulateTrade md t) with h | h
    · rw [List.foldl_cons, h]
      rcases min_choice md.low t.1 with h2 | h2
      · exact Or.inl h2
      · refine Or.inr ?_
        rw [List.map_cons]
        rw [show (accumulateTrade md t).low = t.1 from h2]
        exact List.mem_cons_self _ _
    · rw [List.foldl_cons]
      rw [List.map_cons]
      exact Or.inr (List.mem_cons_of_mem _ h)

/-- `positions` row creation (`prisma.position.upsert` taken after
`findUnique` returned nothing, so only the `create` arm runs;
`frozenQuantity` takes the schema default 0). -/
def insertPos (s : ExchangeState) (userId : ℕ) (symbol : String) (p : Position) :
    ExchangeState :=
  { s with positions := ((userId, symbol), p) :: s.positions }

/-- `OrderService.updatePositionInTransaction`: a BUY fill adds to the
position with a quantity-weighted average cost (creating the row when
absent); a SELL fill settles out of the frozen position through
`UserService.sellPosition`, clamped to the frozen quantity.  Each path runs
the negative-position detection and aborts the transaction on failure. -/
def updatePositionInTransaction (s : ExchangeState) (userId : ℕ) (symbol : String)
    (orderType : OrderType) (quantity : ℤ) (price : ℚ) : Except String ExchangeState :=
  match findPos s userId symbol with
  | some existingPosition =>
    if orderType = .BUY then
      let totalQuantity := existingPosition.quantity + quantity
      let newAvgPrice :=
        ((existingPosition.quantity : ℚ) * existingPosition.avgPrice +
          (quantity : ℚ) * price) / (totalQuantity : ℚ)
      let s' := updPos s userId symbol (fun p =>
        { p with quantity := totalQuantity, avgPrice := newAvgPrice })
      if checkUserPosition s' userId symbol then .ok s'
      else .error "negative position detected"
    else
      if 0 < min quantity existingPosition.frozenQuantity then do
        let s' ← sellPosition s userId symbol (min quantity existingPosition.frozenQuantity)
        if checkUserPosition s' userId symbol then .ok s'
        else .error "negative position detected"
      else .ok s
  | none =>
    if orderType = .BUY then
      let s' := insertPos s userId symbol
        { quantity := quantity, frozenQuantity := 0, avgPrice := price }
      if checkUserPosition s' userId symbol then .ok s'
      else .error "negative position detected"
    else .ok s

/-- The JS `Map<number, number>` tracking in-transaction position changes:
`positionChanges.get(id) || 0`. -/
def getChange (m : List (ℕ × ℤ)) (k : ℕ) : ℤ := (alookup m k).getD 0

/-- `positionChanges.set(id, v)`. -/
def setChange (m : List (ℕ × ℤ)) (k : ℕ) (v : ℤ) : List (ℕ × ℤ) :=
  (k, v) :: aerase m k

/-- `OrderService.updateUserBalances`: per-fill settlement.  Checks the
buyer's frozen balance covers the trade amount, pays from the buyer's frozen
cash, releases the reservation difference when a LIMIT buy becomes fully
filled, settles the seller's shares out of the frozen position, credits the
seller's cash, credits the buyer's position, records the in-transaction
position changes, and runs the negative-balance/position detection on both
parties. -/
def updateUserBalances (s0 : ExchangeState) (buyOrder sellOrder : Order)
    (price : ℚ) (quantity : ℤ) (positionChanges : List (ℕ × ℤ)) :
    Except String (ExchangeState × List (ℕ × ℤ)) := do
  let tradeAmount := price * (quantity : ℚ)
  let symbol := buyOrder.symbol
  if userFrozen s0 buyOrder.userId < tradeAmount then
    throw "buyer frozen balance below trade amount"
  let s1 ← payBalance s0 buyOrder.userId tradeAmount
  let s2 ← (if buyOrder.type = .BUY then
      match findOrder s1.orders buyOrder.id with
      | none => .ok s1
      | some currentOrder =>
        if currentOrder.quantity - currentOrder.filledQuantity ≤ 0 ∧
            buyOrder.method ≠ .MARKET then
          if 0 < currentOrder.frozenAmount - currentOrder.actualUsedAmount then
            let unfreezeAmt :=
              if userFrozen s1 buyOrder.userId <
                  currentOrder.frozenAmount - currentOrder.actualUsedAmount then
                userFrozen s1 buyOrder.userId
              else currentOrder.frozenAmount - currentOrder.actualUsedAmount
            if 0 < unfreezeAmt then unfreezeBalance s1 buyOrder.userId unfreezeAmt
            else .ok s1
          else .ok s1
        else .ok s1
    else .ok s1)
  let s3 ← deductFromFrozenPosition s2 sellOrder.userId symbol quantity
  let s4 ← creditBalance s3 sellOrder.userId tradeAmount
  let s5 ← updatePositionInTransaction s4 buyOrder.userId symbol .BUY quantity price
  let pc1 := setChange positionChanges sellOrder.userId
    (getChange positionChanges sellOrder.userId - quantity)
  let pc2 := setChange pc1 buyOrder.userId (getChange pc1 buyOrder.userId + quantity)
  if checkUserBalance s5 buyOrder.userId ∧ checkUserPosition s5 buyOrder.userId symbol ∧
      checkUserBalance s5 sellOrder.userId ∧ checkUserPosition s5 sellOrder.userId symbol then
    .ok (s5, pc2)
  else .error "negative value detected after fill"

/-- `OrderService.unfreezeOrderResources`: release the residual reservation
of an order.  For a BUY the residual cash is `frozenAmount -
actualUsedAmount` (the MARKET and LIMIT branches of the source compute the
same value), with consistency checks that it is non-negative and does not
exceed the user's current frozen balance, then clamped to the frozen
balance; for a SELL the unfilled share count is released, clamped to the
position's frozen quantity. -/
def unfreezeOrderResources (s : ExchangeState) (order : Order) (userId : ℕ)
    (unfilledQuantity : Option ℤ) : Except String ExchangeState :=
  let actualUnfilledQuantity :=
    unfilledQuantity.getD (order.quantity - order.filledQuantity)
  if order.type = .BUY then
    let remainingFrozen := order.frozenAmount - order.actualUsedAmount
    if remainingFrozen < 0 then .error "used amount exceeds order frozen amount"
    else if userFrozen s userId < remainingFrozen then
      .error "remaining frozen exceeds user frozen balance"
    else if 0 < remainingFrozen then
      if 0 < min remainingFrozen (userFrozen s userId) then
        unfreezeBalance s userId (min remainingFrozen (userFrozen s userId))
      else .ok s
    else .ok s
  else
    if 0 < actualUnfilledQuantity then
      if 0 < min actualUnfilledQuantity (posFrozen s userId order.symbol) then
        adjustFrozenQuantity s userId order.symbol
          (-(min actualUnfilledQuantity (posFrozen s userId order.symbol)))
      else .ok s
    else .ok s

/-- Loop state of the matching loop in `matchOrder`: the transaction state
plus the local variables `filledQuantity`, `remainingQuantity`, `trades`,
`positionChanges` and the new order's cumulative fill tracking. -/
structure MatchAccum where
  state : ExchangeState
  filledQuantity : ℤ
  remainingQuantity : ℤ
  trades : List Trade
  positionChanges : List (ℕ × ℤ)
  cumFilledQty : ℤ
  cumAvgPrice : ℚ
deriving DecidableEq, Repr

/-- One iteration of the matching loop of `matchOrder` over a candidate
opposing order: skip when the candidate has no available quantity or the
seller's frozen position (pre-transaction snapshot plus in-transaction
changes) admits no trade; otherwise determine the fill price, create the
trade row, update both order rows (fill, status, weighted average price,
used amount) and settle the balances. -/
def matchStep (n : Order) (snapshot : ExchangeState) (acc : MatchAccum) (opp : Order) :
    Except String MatchAccum :=
  if opp.quantity - opp.filledQuantity ≤ 0 then .ok acc
  else
    let sellerId := if n.type = .SELL then n.userId else opp.userId
    let tradeQuantity :=
      min (min acc.remainingQuantity (opp.quantity - opp.filledQuantity))
        (posFrozen snapshot sellerId n.symbol + getChange acc.positionChanges sellerId)
    if tradeQuantity ≤ 0 then .ok acc
    else do
      let tradePrice ← determineTradePrice acc.state n opp
      let trade : Trade :=
        { id := acc.state.nextTradeId,
          buyOrderId := if n.type = .BUY then n.id else opp.id,
          sellOrderId := if n.type = .SELL then n.id else opp.id,
          buyUserId := if n.type = .BUY then n.userId else opp.userId,
          sellUserId := if n.type = .SELL then n.userId else opp.userId,
          price := tradePrice, quantity := tradeQuantity, symbol := n.symbol }
      let s1 := { acc.state with
        trades := acc.state.trades ++ [trade],
        nextTradeId := acc.state.nextTradeId + 1 }
      let newOrderFilledQty := acc.filledQuantity + tradeQuantity
      let newOrderNewStatus :=
        if n.quantity ≤ newOrderFilledQty then OrderStatus.FILLED
        else OrderStatus.PARTIALLY_FILLED
      let newOrderNewAvgPrice :=
        if 0 < acc.cumFilledQty then
          round2 ((acc.cumAvgPrice * (acc.cumFilledQty : ℚ) +
            tradePrice * (tradeQuantity : ℚ)) / (newOrderFilledQty : ℚ))
        else tradePrice
      let s2 := updOrder s1 n.id (fun o =>
        { o with filledQuantity := newOrderFilledQty, status := newOrderNewStatus,
                 avgFilledPrice := some newOrderNewAvgPrice,
                 actualUsedAmount := o.actualUsedAmount + tradePrice * (tradeQuantity : ℚ) })
      let oppositeOrderFilledQty := opp.filledQuantity + tradeQuantity
      let oppositeOrderNewStatus :=
        if opp.quantity ≤ oppositeOrderFilledQty then OrderStatus.FILLED
        else OrderStatus.PARTIALLY_FILLED
      let oppositeOrderNewAvgPrice :=
        if 0 < opp.filledQuantity then
          round2 (((opp.avgFilledPrice.getD 0) * (opp.filledQuantity : ℚ) +
            tradePrice * (tradeQuantity : ℚ)) / (oppositeOrderFilledQty : ℚ))
        else tradePrice
      let s3 := updOrder s2 opp.id (fun o =>
        { o with filledQuantity := oppositeOrderFilledQty,
                 status := oppositeOrderNewStatus,
                 avgFilledPrice := some oppositeOrderNewAvgPrice,
                 actualUsedAmount := o.actualUsedAmount + tradePrice * (tradeQuantity : ℚ) })
      let (s4, pc) ← updateUserBalances s3 (if n.type = .BUY then n else opp)
        (if n.type = .SELL then n else opp) tradePrice tradeQuantity acc.positionChanges
      .ok { state := s4,
            filledQuantity := acc.filledQuantity + tradeQuantity,
            remainingQuantity := acc.remainingQuantity - tradeQuantity,
            trades := acc.trades ++ [trade],
            positionChanges := pc,
            cumFilledQty := newOrderFilledQty,
            cumAvgPrice := newOrderNewAvgPrice }

/-- The matching loop: iterate the candidates in book order, stopping when
the remaining quantity reaches zero (an over-fill would abort). -/
def matchLoop (n : Order) (snapshot : ExchangeState) :
    MatchAccum → List Order → Except String MatchAccum
  | acc, [] => .ok acc
  | acc, opp :: rest =>
    if acc.remainingQuantity = 0 then .ok acc
    else if acc.remainingQuantity < 0 then .error "negative remaining quantity"
    else do
      let acc' ← matchStep n snapshot acc opp
      matchLoop n snapshot acc' rest

/-- Result record of `matchOrder`: the fill count, the final status, and the
trades later enqueued as one batch-trade job. -/
structure MatchResult where
  filledQuantity : ℤ
  finalStatus : OrderStatus
  trades : List Trade
deriving DecidableEq, Repr

/-- `OrderService.matchOrder`: fetch the book candidates, run the matching
loop, then finalise.  A MARKET order is FILLED when fully filled and
CANCELLED otherwise, with its residual reservation released through
`unfreezeOrderResources` in the same transaction; a LIMIT order ends
FILLED / PARTIALLY_FILLED / OPEN according to its fills and rests.  The
seller-side frozen-position reads inside the loop go through the
pre-transaction snapshot (`positionService` reads outside the transaction),
which is the state at entry. -/
def matchOrder (n : Order) (s : ExchangeState) :
    Except String (MatchResult × ExchangeState) := do
  let acc ← matchLoop n s
    { state := s, filledQuantity := 0, remainingQuantity := n.quantity,
      trades := [], positionChanges := [],
      cumFilledQty := n.filledQuantity, cumAvgPrice := (n.avgFilledPrice).getD 0 }
    (fetchOppositeOrders s n)
  if n.method = .MARKET then
    match findOrder acc.state.orders n.id with
    | none => .error "order row disappeared"
    | some latestOrder => do
      let s' ← unfreezeOrderResources acc.state latestOrder n.userId
        (some acc.remainingQuantity)
      .ok ({ filledQuantity := acc.filledQuantity,
             finalStatus := if n.quantity ≤ acc.filledQuantity then OrderStatus.FILLED
               else OrderStatus.CANCELLED,
             trades := acc.trades }, s')
  else
    .ok ({ filledQuantity := acc.filledQuantity,
           finalStatus := if n.quantity ≤ acc.filledQuantity then OrderStatus.FILLED
             else if 0 < acc.filledQuantity then OrderStatus.PARTIALLY_FILLED
             else OrderStatus.OPEN,
           trades := acc.trades }, acc.state)

/-- `OrderService.handleOrderSync` (the transaction body of the queue
processor's order job): look the order up, require the PENDING status,
transition it to OPEN, run `matchOrder`, and store the final status and
fill count back on the row when they changed. -/
def handleOrderSync (s : ExchangeState) (orderId : ℕ) :
    Except String (OrderStatus × ℤ × ExchangeState) :=
  match findOrder s.orders orderId with
  | none => .error "order not found"
  | some order =>
    if order.status ≠ .PENDING then .error "order status not PENDING"
    else do
      let updatedOrder := { order with status := OrderStatus.OPEN }
      let s1 := updOrder s orderId (fun o => { o with status := OrderStatus.OPEN })
      let (r, s2) ← matchOrder updatedOrder s1
      let s3 :=
        if r.finalStatus ≠ updatedOrder.status then
          updOrder s2 orderId (fun o =>
            { o with status := r.finalStatus, filledQuantity := r.filledQuantity })
        else s2
      .ok (r.finalStatus, r.filledQuantity, s3)

/-- Error taxonomy of the NestJS exceptions raised by the order service:
`BadRequestException`, `NotFoundException`, `ForbiddenException`, and any
other in-transaction error (which rolls the transaction back). -/
inductive ApiError where
  | badRequest
  | notFound
  | forbidden
  | internal (msg : String)
deriving DecidableEq, Repr

/-- `OrderService.validateOrderInput`: a LIMIT order needs a positive price
(`!price || price <= 0` also catches a missing one) and the quantity must be
positive. -/
def validateOrderInput (method : OrderMethod) (price : Option ℚ) (quantity : ℤ) :
    Except ApiError Unit :=
  if method = .LIMIT ∧ price.getD 0 ≤ 0 then .error .badRequest
  else if quantity ≤ 0 then .error .badRequest
  else .ok ()

/-- `OrderService.calculateRequiredAmount`: a MARKET buy reserves the
caller's entire available balance (rejected when it is not positive); a
LIMIT buy reserves `price * quantity`; a sell reserves no cash. -/
def calculateRequiredAmount (s : ExchangeState) (userId : ℕ) (type : OrderType)
    (method : OrderMethod) (price : Option ℚ) (quantity : ℤ) : Except ApiError ℚ :=
  if type = .BUY then
    if method = .MARKET then
      match findUser s userId with
      | none => .error .notFound
      | some user =>
        if max 0 (user.balance - user.frozenBalance) ≤ 0 then .error .badRequest
        else .ok (max 0 (user.balance - user.frozenBalance))
    else .ok (price.getD 0 * (quantity : ℚ))
  else .ok 0

/-- `OrderService.validateUserResources`: a buy needs
`availableBalance ≥ requiredAmount`; a sell needs
`availablePosition ≥ quantity` (`PositionService.checkSellQuantity`). -/
def validateUserResources (s : ExchangeState) (userId : ℕ) (symbol : String)
    (type : OrderType) (quantity : ℤ) (requiredAmount : ℚ) : Except ApiError Unit :=
  if type = .BUY then
    match findUser s userId with
    | none => .error .notFound
    | some user =>
      if max 0 (user.balance - user.frozenBalance) < requiredAmount then
        .error .badRequest
      else .ok ()
  else
    if getAvailablePosition s userId symbol < quantity then .error .badRequest
    else .ok ()

/-- `OrderService.pushIntoOrderQueue` up to the queue hand-off: validate the
input, look the caller up (`findById` raises NotFound), compute and validate
the reservation, then in one transaction create the PENDING order row —
recording `frozenAmount` for a buy — and freeze the cash (buy) or the
shares (sell).  A reservation failure aborts the transaction, so no order is
persisted. -/
def submitOrder (s : ExchangeState) (userId : ℕ) (symbol : String)
    (type : OrderType) (method : OrderMethod) (price : Option ℚ) (quantity : ℤ)
    (now : ℕ) : Except ApiError (Order × ExchangeState) := do
  validateOrderInput method price quantity
  match findUser s userId with
  | none => .error .notFound
  | some _ => do
    let requiredAmount ← calculateRequiredAmount s userId type method price quantity
    validateUserResources s userId symbol type quantity requiredAmount
    let order : Order :=
      { id := s.nextOrderId, userId := userId, symbol := symbol, type := type,
        method := method,
        price := if method = .MARKET then none else price,
        quantity := quantity, filledQuantity := 0, avgFilledPrice := none,
        status := .PENDING,
        frozenAmount := if type = .BUY then requiredAmount else 0,
        actualUsedAmount := 0, createdAt := now }
    let s1 := { s with orders := s.orders ++ [order], nextOrderId := s.nextOrderId + 1 }
    let s2 ← (if type = .BUY then freezeBalance s1 userId requiredAmount
              else freezePositionWithTx s1 userId symbol quantity).mapError ApiError.internal
    .ok (order, s2)

/-- `OrderService.cancelOrder`: NotFound for an unknown id, Forbidden for a
non-owner, idempotent success on a terminal order, BadRequest for any other
non-OPEN/PARTIALLY_FILLED status (note: this includes PENDING), and
otherwise transition to CANCELLED and release the residual reservation in
one transaction. -/
def cancelOrder (s : ExchangeState) (orderId userId : ℕ) :
    Except ApiError (Bool × ExchangeState) :=
  match findOrder s.orders orderId with
  | none => .error .notFound
  | some order =>
    if order.userId ≠ userId then .error .forbidden
    else if order.status = .CANCELLED then .ok (true, s)
    else if order.status = .FILLED then .ok (true, s)
    else if ¬(order.status = .OPEN ∨ order.status = .PARTIALLY_FILLED) then
      .error .badRequest
    else
      ((unfreezeOrderResources
          (updOrder s orderId (fun o => { o with status := OrderStatus.CANCELLED }))
          order userId (some (order.quantity - order.filledQuantity))).map
        (fun s2 => (true, s2))).mapError ApiError.internal

/-- The ledger mutations performed by submissions, fills and cancellations:
each constructor names the `UserService` primitive (or, for the two credit
operations, the inline mutation in `OrderService`) it is applied through. -/
inductive LedgerOp where
  | freezeBalance (userId : ℕ) (amount : ℚ)
  | unfreezeBalance (userId : ℕ) (amount : ℚ)
  | payBalance (userId : ℕ) (amount : ℚ)
  | adjustFrozenBalance (userId : ℕ) (amount : ℚ)
  | creditBalance (userId : ℕ) (amount : ℚ)
  | freezePosition (userId : ℕ) (symbol : String) (quantity : ℤ)
  | unfreezePosition (userId : ℕ) (symbol : String) (quantity : ℤ)
  | deductFromFrozenPosition (userId : ℕ) (symbol : String) (quantity : ℤ)
  | adjustFrozenQuantity (userId : ℕ) (symbol : String) (quantity : ℤ)
  | sellPosition (userId : ℕ) (symbol : String) (quantity : ℤ)
  | creditPosition (userId : ℕ) (symbol : String) (quantity : ℤ) (price : ℚ)
deriving DecidableEq, Repr

/-- Interpret one ledger operation through the embedded primitives. -/
def applyLedgerOp (s : ExchangeState) : LedgerOp → Except String ExchangeState
  | .freezeBalance uid a => freezeBalance s uid a
  | .unfreezeBalance uid a => unfreezeBalance s uid a
  | .payBalance uid a => payBalance s uid a
  | .adjustFrozenBalance uid a => adjustFrozenBalance s uid a
  | .creditBalance uid a => creditBalance s uid a
  | .freezePosition uid sym q => freezePositionWithTx s uid sym q
  | .unfreezePosition uid sym q => unfreezePosition s uid sym q
  | .deductFromFrozenPosition uid sym q => deductFromFrozenPosition s uid sym q
  | .adjustFrozenQuantity uid sym q => adjustFrozenQuantity s uid sym q
  | .sellPosition uid sym q => sellPosition s uid sym q
  | .creditPosition uid sym q p => updatePositionInTransaction s uid sym .BUY q p

/-- Commit a sequence of ledger operations; the first failure aborts. -/
def applyLedgerOps : ExchangeState → List LedgerOp → Except String ExchangeState
  | s, [] => .ok s
  | s, op :: rest => do
    let s' ← applyLedgerOp s op
    applyLedgerOps s' rest

/-- The only side condition the fill flow guarantees beyond the primitives'
own checks: the seller-side cash credit amount (`price * quantity`) is
non-negative. -/
def LedgerOp.nonneg : LedgerOp → Prop
  | .creditBalance _ a => 0 ≤ a
  | _ => True

instance : DecidablePred LedgerOp.nonneg := fun op => by
  cases op <;> simp only [LedgerOp.nonneg] <;> infer_instance

/-- Reservation bounds for one account: `0 ≤ cashReserved ≤ cashTotal`. -/
def AccountOk (a : Account) : Prop :=
  0 ≤ a.frozenBalance ∧ a.frozenBalance ≤ a.balance

/-- Reservation bounds for one position: `0 ≤ qtyReserved ≤ qtyTotal`. -/
def PositionOk (p : Position) : Prop :=
  0 ≤ p.frozenQuantity ∧ p.frozenQuantity ≤ p.quantity

/-- The ledger invariant: unique row keys (the schema's unique indexes) and
the reservation bounds on every account and every position. -/
def WF (s : ExchangeState) : Prop :=
  (s.users.map Prod.fst).Nodup ∧ (s.positions.map Prod.fst).Nodup ∧
    (∀ e ∈ s.users, AccountOk e.2) ∧ (∀ e ∈ s.positions, PositionOk e.2)

instance (s : ExchangeState) : Decidable (WF s) := by
  unfold WF AccountOk PositionOk; infer_instance

theorem alookup_mem {κ α : Type} [DecidableEq κ]
    {l : List (κ × α)} {k : κ} {a : α} (h : alookup l k = some a) : (k, a) ∈ l := by
  induction l with
  | nil => cases h
  | cons p t ih =>
    by_cases hk : p.1 = k
    · have : p.2 = a := by simpa [alookup, hk] using h
      exact List.mem_cons.2 (Or.inl (by rw [← hk, ← this]))
    · exact List.mem_cons_of_mem _ (ih (by simpa [alookup, hk] using h))

theorem not_mem_keys_of_alookup_none {κ α : Type} [DecidableEq κ]
    {l : List (κ × α)} {k : κ} (h : alookup l k = none) : k ∉ l.map Prod.fst := by
  induction l with
  | nil => simp
  | cons p t ih =>
    by_cases hk : p.1 = k
    · simp [alookup, hk] at h
    · have ht := ih (by simpa [alookup, hk] using h)
      simp only [List.map_cons, List.mem_cons]
      rintro (h1 | h1)
      · exact hk h1.symm
      · exact ht h1

theorem WF_updUser {s : ExchangeState} {uid : ℕ} {f : Account → Account}
    (hwf : WF s) (hf : ∀ u, findUser s uid = some u → AccountOk (f u)) :
    WF (updUser s uid f) := by
  obtain ⟨hnu, hnp, hau, hap⟩ := hwf
  refine ⟨?_, hnp, ?_, hap⟩
  · simpa [updUser, keys_aupdate] using hnu
  · intro e he
    rcases mem_aupdate he with h | ⟨a, ha, rfl⟩
    · exact hau e h
    · exact hf a (alookup_eq_of_mem_nodup hnu ha)

theorem WF_updPos {s : ExchangeState} {uid : ℕ} {sym : String} {f : Position → Position}
    (hwf : WF s) (hf : ∀ p, findPos s uid sym = some p → PositionOk (f p)) :
    WF (updPos s uid sym f) := by
  obtain ⟨hnu, hnp, hau, hap⟩ := hwf
  refine ⟨hnu, ?_, hau, ?_⟩
  · simpa [updPos, keys_aupdate] using hnp
  · intro e he
    rcases mem_aupdate he with h | ⟨a, ha, rfl⟩
    · exact hap e h
    · exact hf a (alookup_eq_of_mem_nodup hnp ha)

theorem WF_insertPos {s : ExchangeState} {uid : ℕ} {sym : String} {p : Position}
    (hwf : WF s) (hnone : findPos s uid sym = none) (hp : PositionOk p) :
    WF (insertPos s uid sym p) := by
  obtain ⟨hnu, hnp, hau, hap⟩ := hwf
  refine ⟨hnu, ?_, hau, ?_⟩
  · simp only [insertPos, List.map_cons, List.nodup_cons]
    exact ⟨not_mem_keys_of_alookup_none hnone, hnp⟩
  · intro e he
    rcases List.mem_cons.1 he with h | h
    · rw [h]; exact hp
    · exact hap e h

theorem WF_erasePos {s : ExchangeState} {uid : ℕ} {sym : String}
    (hwf : WF s) : WF { s with positions := aerase s.positions (uid, sym) } := by
  obtain ⟨hnu, hnp, hau, hap⟩ := hwf
  exact ⟨hnu, nodup_keys_aerase _ hnp, hau,
    fun e he => hap e (mem_of_mem_aerase he)⟩

theorem findPos_insertPos_self (s : ExchangeState) (uid : ℕ) (sym : String)
    (p : Position) : findPos (insertPos s uid sym p) uid sym = some p := by
  simp [findPos, insertPos, alookup]

theorem checkUserPosition_true_iff (s : ExchangeState) (uid : ℕ) (sym : String) :
    checkUserPosition s uid sym = true ↔
      (∀ p, findPos s uid sym = some p → PositionOk p) := by
  unfold checkUserPosition PositionOk
  cases h : findPos s uid sym with
  | none => simp
  | some p =>
    simp only [Bool.and_eq_true, decide_eq_true_eq]
    constructor
    · rintro ⟨⟨-, h2⟩, h3⟩ q hq
      cases Option.some.inj hq
      exact ⟨h2, by linarith⟩
    · intro hq
      obtain ⟨h1, h2⟩ := hq p rfl
      exact ⟨⟨by linarith, h1⟩, by linarith⟩

theorem WF_applyLedgerOp {s s' : ExchangeState} {op : LedgerOp}
    (hwf : WF s) (hop : op.nonneg) (h : applyLedgerOp s op = .ok s') : WF s' := by
  cases op with
  | freezeBalance uid a =>
    simp only [applyLedgerOp, freezeBalance] at h
    split at h
    · cases h
    · obtain ⟨u, hu, -, h1, h2, rfl⟩ := adjustFrozenBalance_ok h
      exact WF_updUser hwf (fun u' hu' => by
        rw [hu] at hu'
        cases Option.some.inj hu'
        exact ⟨h1, h2⟩)
  | unfreezeBalance uid a =>
    simp only [applyLedgerOp, unfreezeBalance] at h
    split at h
    · cases h
    · obtain ⟨u, hu, -, h1, h2, rfl⟩ := adjustFrozenBalance_ok h
      exact WF_updUser hwf (fun u' hu' => by
        rw [hu] at hu'
        cases Option.some.inj hu'
        exact ⟨h1, h2⟩)
  | payBalance uid a =>
    obtain ⟨u, hu, hpos, hle, rfl⟩ := payBalance_ok h
    have huok : AccountOk u := hwf.2.2.1 (uid, u) (alookup_mem hu)
    refine WF_updUser hwf (fun u' hu' => ?_)
    rw [hu] at hu'
    cases Option.some.inj hu'
    exact ⟨show (0 : ℚ) ≤ u.frozenBalance - a by linarith,
           show u.frozenBalance - a ≤ u.balance - a by linarith [huok.2]⟩
  | adjustFrozenBalance uid a =>
    obtain ⟨u, hu, -, h1, h2, rfl⟩ := adjustFrozenBalance_ok h
    exact WF_updUser hwf (fun u' hu' => by
      rw [hu] at hu'
      cases Option.some.inj hu'
      exact ⟨h1, h2⟩)
  | creditBalance uid a =>
    obtain ⟨u, hu, rfl⟩ := creditBalance_ok h
    have huok : AccountOk u := hwf.2.2.1 (uid, u) (alookup_mem hu)
    have ha : (0 : ℚ) ≤ a := hop
    refine WF_updUser hwf (fun u' hu' => ?_)
    rw [hu] at hu'
    cases Option.some.inj hu'
    exact ⟨huok.1, show u.frozenBalance ≤ u.balance + a by linarith [huok.2]⟩
  | freezePosition uid sym q =>
    simp only [applyLedgerOp, freezePositionWithTx] at h
    split at h
    · cases h
    · obtain ⟨p, hp, -, h1, h2, rfl⟩ := adjustFrozenQuantity_ok h
      exact WF_updPos hwf (fun p' hp' => by
        rw [hp] at hp'
        cases Option.some.inj hp'
        exact ⟨h1, h2⟩)
  | unfreezePosition uid sym q =>
    simp only [applyLedgerOp, unfreezePosition] at h
    split at h
    · cases h
    · obtain ⟨p, hp, -, h1, h2, rfl⟩ := adjustFrozenQuantity_ok h
      exact WF_updPos hwf (fun p' hp' => by
        rw [hp] at hp'
        cases Option.some.inj hp'
        exact ⟨h1, h2⟩)
  | deductFromFrozenPosition uid sym q =>
    simp only [applyLedgerOp, deductFromFrozenPosition] at h
    split at h
    · cases h
    · obtain ⟨p, hp, -, h1, h2, rfl⟩ := adjustFrozenQuantity_ok h
      exact WF_updPos hwf (fun p' hp' => by
        rw [hp] at hp'
        cases Option.some.inj hp'
        exact ⟨h1, h2⟩)
  | adjustFrozenQuantity uid sym q =>
    obtain ⟨p, hp, -, h1, h2, rfl⟩ := adjustFrozenQuantity_ok h
    exact WF_updPos hwf (fun p' hp' => by
      rw [hp] at hp'
      cases Option.some.inj hp'
      exact ⟨h1, h2⟩)
  | sellPosition uid sym q =>
    obtain ⟨p, hp, hq, hmin, hcase⟩ := sellPosition_ok h
    have hpok : PositionOk p := hwf.2.2.2 ((uid, sym), p) (alookup_mem hp)
    rcases hcase with ⟨hlt, rfl⟩ | ⟨hle, rfl⟩
    · refine WF_updPos hwf (fun p' hp' => ?_)
      rw [hp] at hp'
      cases Option.some.inj hp'
      have hmr : min q p.frozenQuantity ≤ p.frozenQuantity := min_le_right _ _
      exact ⟨show (0 : ℤ) ≤ p.frozenQuantity - min q p.frozenQuantity by linarith,
             show p.frozenQuantity - min q p.frozenQuantity ≤
               p.quantity - min q p.frozenQuantity by linarith [hpok.2]⟩
    · exact WF_erasePos hwf
  | creditPosition uid sym q pr =>
    simp only [applyLedgerOp] at h
    unfold updatePositionInTransaction at h
    split at h
    · rename_i p hp
      rw [if_pos rfl] at h
      dsimp only at h
      split at h
      · rename_i hchk
        cases Except.ok.inj h
        refine WF_updPos hwf (fun p' hp' => ?_)
        rw [hp] at hp'
        cases Option.some.inj hp'
        have := (checkUserPosition_true_iff _ uid sym).1 hchk
        refine this _ ?_
        rw [findPos_updPos_self, hp]
        rfl
      · cases h
    · rename_i hp
      rw [if_pos rfl] at h
      dsimp only at h
      split at h
      · rename_i hchk
        cases Except.ok.inj h
        refine WF_insertPos hwf hp ?_
        exact (checkUserPosition_true_iff _ uid sym).1 hchk _
          (findPos_insertPos_self s uid sym _)
      · cases h

theorem exceptBind_ok {ε α β : Type} {x : Except ε α} {f : α → Except ε β} {b : β}
    (h : (x >>= f) = .ok b) : ∃ a, x = .ok a ∧ f a = .ok b := by
  cases x with
  | error e => exact absurd h (by intro hc; cases hc)
  | ok a => exact ⟨a, rfl, h⟩

theorem exceptMap_ok {ε α β : Type} {x : Except ε α} {g : α → β} {b : β}
    (h : x.map g = .ok b) : ∃ a, x = .ok a ∧ g a = b := by
  cases x with
  | error e => exact absurd h (by intro hc; cases hc)
  | ok a => exact ⟨a, rfl, Except.ok.inj h⟩

theorem exceptMapError_ok {ε ε' α : Type} {x : Except ε α} {g : ε → ε'} {b : α}
    (h : x.mapError g = .ok b) : x = .ok b := by
  cases x with
  | error e => exact absurd h (by intro hc; cases hc)
  | ok a => cases Except.ok.inj h; rfl

theorem unfreezeBalance_ok {s s' : ExchangeState} {uid : ℕ} {a : ℚ}
    (h : unfreezeBalance s uid a = .ok s') :
    0 < a ∧ adjustFrozenBalance s uid (-a) = .ok s' := by
  unfold unfreezeBalance at h
  split at h
  · cases h
  · rename_i ha
    exact ⟨by linarith [not_le.1 ha], h⟩

theorem adjustFrozenBalance_effect {s s' : ExchangeState} {uid : ℕ} {δ : ℚ}
    (h : adjustFrozenBalance s uid δ = .ok s') :
    userFrozen s' uid = userFrozen s uid + δ ∧
      userBalance s' uid = userBalance s uid ∧
      s'.positions = s.positions ∧ s'.orders = s.orders ∧ s'.trades = s.trades := by
  obtain ⟨u, hu, -, -, -, rfl⟩ := adjustFrozenBalance_ok h
  refine ⟨?_, ?_, rfl, rfl, rfl⟩
  · unfold userFrozen
    rw [findUser_updUser_self, hu]
    rfl
  · unfold userBalance
    rw [findUser_updUser_self, hu]
    rfl

theorem payBalance_effect {s s' : ExchangeState} {uid : ℕ} {a : ℚ}
    (h : payBalance s uid a = .ok s') :
    userFrozen s' uid = userFrozen s uid - a ∧
      userBalance s' uid = userBalance s uid - a ∧
      a ≤ userFrozen s uid ∧ 0 < a ∧
      s'.positions = s.positions ∧ s'.orders = s.orders ∧ s'.trades = s.trades := by
  obtain ⟨u, hu, hpos, hle, rfl⟩ := payBalance_ok h
  refine ⟨?_, ?_, ?_, hpos, rfl, rfl, rfl⟩
  · unfold userFrozen
    rw [findUser_updUser_self, hu]
    rfl
  · unfold userBalance
    rw [findUser_updUser_self, hu]
    rfl
  · unfold userFrozen
    rw [hu]
    exact hle

theorem creditBalance_effect {s s' : ExchangeState} {uid : ℕ} {a : ℚ}
    (h : creditBalance s uid a = .ok s') :
    userFrozen s' uid = userFrozen s uid ∧
      userBalance s' uid = userBalance s uid + a ∧
      s'.positions = s.positions ∧ s'.orders = s.orders ∧ s'.trades = s.trades := by
  obtain ⟨u, hu, rfl⟩ := creditBalance_ok h
  refine ⟨?_, ?_, rfl, rfl, rfl⟩
  · unfold userFrozen
    rw [findUser_updUser_self, hu]
    rfl
  · unfold userBalance
    rw [findUser_updUser_self, hu]
    rfl

theorem adjustFrozenQuantity_effect {s s' : ExchangeState} {uid : ℕ} {sym : String}
    {δ : ℤ} (h : adjustFrozenQuantity s uid sym δ = .ok s') :
    posFrozen s' uid sym = posFrozen s uid sym + δ ∧
      posQuantity s' uid sym = posQuantity s uid sym ∧
      s'.users = s.users ∧ s'.orders = s.orders ∧ s'.trades = s.trades := by
  obtain ⟨p, hp, -, -, -, rfl⟩ := adjustFrozenQuantity_ok h
  refine ⟨?_, ?_, rfl, rfl, rfl⟩
  · unfold posFrozen
    rw [findPos_updPos_self, hp]
    rfl
  · unfold posQuantity
    rw [findPos_updPos_self, hp]
    rfl

theorem unfreezeOrderResources_buy {s s' : ExchangeState} {order : Order} {uid : ℕ}
    {rem : Option ℤ} (horder : order.type = .BUY)
    (h : unfreezeOrderResources s order uid rem = .ok s') :
    0 ≤ order.frozenAmount - order.actualUsedAmount ∧
      order.frozenAmount - order.actualUsedAmount ≤ userFrozen s uid ∧
      userFrozen s' uid =
        userFrozen s uid - (order.frozenAmount - order.actualUsedAmount) ∧
      s'.positions = s.positions ∧ s'.orders = s.orders := by
  unfold unfreezeOrderResources at h
  rw [if_pos horder] at h
  dsimp only at h
  split at h
  · cases h
  · rename_i h1
    split at h
    · cases h
    · rename_i h2
      split at h
      · rename_i h3
        have hmin : min (order.frozenAmount - order.actualUsedAmount) (userFrozen s uid) =
            order.frozenAmount - order.actualUsedAmount :=
          min_eq_left (by linarith [not_lt.1 h2])
        rw [hmin, if_pos h3] at h
        obtain ⟨-, h4⟩ := unfreezeBalance_ok h
        obtain ⟨he1, -, he3, he4, -⟩ := adjustFrozenBalance_effect h4
        exact ⟨by linarith, by linarith [not_lt.1 h2], by rw [he1]; ring, he3, he4⟩
      · rename_i h3
        cases Except.ok.inj h
        have hz : order.frozenAmount - order.actualUsedAmount = 0 := by
          linarith [not_lt.1 h1, not_lt.1 h3]
        exact ⟨by linarith, by rw [hz]; linarith [not_lt.1 h2], by rw [hz]; ring, rfl, rfl⟩

theorem unfreezeOrderResources_sell {s s' : ExchangeState} {order : Order} {uid : ℕ}
    {rem : ℤ} (horder : order.type = .SELL)
    (h : unfreezeOrderResources s order uid (some rem) = .ok s') :
    posFrozen s' uid order.symbol =
      posFrozen s uid order.symbol -
        max 0 (min rem (posFrozen s uid order.symbol)) ∧
      s'.users = s.users ∧ s'.orders = s.orders := by
  unfold unfreezeOrderResources at h
  rw [if_neg (by rw [horder]; decide)] at h
  dsimp only [Option.getD] at h
  split at h
  · rename_i h1
    split at h
    · rename_i h2
      obtain ⟨he1, -, he3, he4, -⟩ := adjustFrozenQuantity_effect h
      refine ⟨?_, he3, he4⟩
      rw [he1, max_eq_right (le_of_lt h2)]
      ring
    · rename_i h2
      cases Except.ok.inj h
      rw [max_eq_left (not_lt.1 h2)]
      exact ⟨by ring_nf, rfl, rfl⟩
  · rename_i h1
    cases Except.ok.inj h
    have : min rem (posFrozen s uid order.symbol) ≤ 0 :=
      le_trans (min_le_left _ _) (not_lt.1 h1)
    rw [max_eq_left this]
    exact ⟨by ring_nf, rfl, rfl⟩

theorem mem_updOrder_orders {s : ExchangeState} {i : ℕ} {f : Order → Order} {o : Order}
    (h : o ∈ (updOrder s i f).orders) :
    ∃ a ∈ s.orders, o = if a.id = i then f a else a := by
  rcases List.mem_map.1 h with ⟨a, ha, rfl⟩
  exact ⟨a, ha, rfl⟩

theorem matchStep_trades {n : Order} {snap : ExchangeState} {acc acc' : MatchAccum}
    {opp : Order} (h : matchStep n snap acc opp = .ok acc') :
    acc'.trades = acc.trades ∨
      ∃ tr : Trade, acc'.trades = acc.trades ++ [tr] ∧
        tr.buyUserId = (if n.type = .BUY then n.userId else opp.userId) ∧
        tr.sellUserId = (if n.type = .SELL then n.userId else opp.userId) := by
  unfold matchStep at h
  by_cases hc1 : opp.quantity - opp.filledQuantity ≤ 0
  · rw [if_pos hc1] at h
    cases Except.ok.inj h
    exact Or.inl rfl
  · rw [if_neg hc1] at h
    dsimp only at h
    by_cases hc2 :
        min (min acc.remainingQuantity (opp.quantity - opp.filledQuantity))
          (posFrozen snap (if n.type = OrderType.SELL then n.userId else opp.userId)
              n.symbol +
            getChange acc.positionChanges
              (if n.type = OrderType.SELL then n.userId else opp.userId)) ≤ 0
    · rw [if_pos hc2] at h
      cases Except.ok.inj h
      exact Or.inl rfl
    · rw [if_neg hc2] at h
      obtain ⟨price, hdp, h⟩ := exceptBind_ok h
      obtain ⟨x, hub, h⟩ := exceptBind_ok h
      obtain ⟨s4, pc⟩ := x
      cases Except.ok.inj h
      exact Or.inr ⟨_, rfl, rfl, rfl⟩

theorem matchLoop_userIds {n : Order} {snap : ExchangeState} :
    ∀ {l : List Order} {acc acc' : MatchAccum},
      (∀ opp ∈ l, opp.userId ≠ n.userId) →
      (∀ t ∈ acc.trades, t.buyUserId ≠ t.sellUserId) →
      matchLoop n snap acc l = .ok acc' →
      ∀ t ∈ acc'.trades, t.buyUserId ≠ t.sellUserId := by
  intro l
  induction l with
  | nil =>
    intro acc acc' _ hacc h
    cases Except.ok.inj h
    exact hacc
  | cons opp rest ih =>
    intro acc acc' hl hacc h
    unfold matchLoop at h
    split at h
    · cases Except.ok.inj h
      exact hacc
    · split at h
      · cases h
      · obtain ⟨acc1, hstep, h⟩ := exceptBind_ok h
        have hne : opp.userId ≠ n.userId := hl opp (List.mem_cons_self _ _)
        have hacc1 : ∀ t ∈ acc1.trades, t.buyUserId ≠ t.sellUserId := by
          rcases matchStep_trades hstep with heq | ⟨tr, heq, hb, hs⟩
          · rw [heq]; exact hacc
          · rw [heq]
            intro t ht
            rcases List.mem_append.1 ht with h1 | h1
            · exact hacc t h1
            · have : t = tr := List.mem_singleton.1 h1
              rw [this, hb, hs]
              cases n.type with
              | BUY => simpa using fun hc => hne hc.symm
              | SELL => simpa using hne
        exact ih (fun o ho => hl o (List.mem_cons_of_mem _ ho)) hacc1 h

theorem matchOrder_market {n : Order} {s s' : ExchangeState} {r : MatchResult}
    (hm : n.method = .MARKET) (h : matchOrder n s = .ok (r, s')) :
    ∃ acc latest,
      matchLoop n s
        { state := s, filledQuantity := 0, remainingQuantity := n.quantity,
          trades := [], positionChanges := [],
          cumFilledQty := n.filledQuantity,
          cumAvgPrice := n.avgFilledPrice.getD 0 } (fetchOppositeOrders s n) = .ok acc ∧
      findOrder acc.state.orders n.id = some latest ∧
      unfreezeOrderResources acc.state latest n.userId (some acc.remainingQuantity) =
        .ok s' ∧
      r.filledQuantity = acc.filledQuantity ∧ r.trades = acc.trades ∧
      r.finalStatus = (if n.quantity ≤ acc.filledQuantity then OrderStatus.FILLED
        else OrderStatus.CANCELLED) := by
  unfold matchOrder at h
  obtain ⟨acc, hacc, h⟩ := exceptBind_ok h
  rw [if_pos hm] at h
  cases hlo : findOrder acc.state.orders n.id with
  | none => rw [hlo] at h; cases h
  | some latest =>
    rw [hlo] at h
    obtain ⟨s1, hunf, h⟩ := exceptBind_ok h
    have hpair := Prod.mk.inj (Except.ok.inj h)
    refine ⟨acc, latest, hacc, hlo, hpair.2 ▸ hunf, ?_, ?_, ?_⟩ <;>
      rw [← hpair.1]

theorem matchOrder_limit {n : Order} {s s' : ExchangeState} {r : MatchResult}
    (hm : n.method = .LIMIT) (h : matchOrder n s = .ok (r, s')) :
    ∃ acc,
      matchLoop n s
        { state := s, filledQuantity := 0, remainingQuantity := n.quantity,
          trades := [], positionChanges := [],
          cumFilledQty := n.filledQuantity,
          cumAvgPrice := n.avgFilledPrice.getD 0 } (fetchOppositeOrders s n) = .ok acc ∧
      s' = acc.state ∧
      r.filledQuantity = acc.filledQuantity ∧ r.trades = acc.trades ∧
      r.finalStatus = (if n.quantity ≤ acc.filledQuantity then OrderStatus.FILLED
        else if 0 < acc.filledQuantity then OrderStatus.PARTIALLY_FILLED
        else OrderStatus.OPEN) := by
  unfold matchOrder at h
  obtain ⟨acc, hacc, h⟩ := exceptBind_ok h
  rw [if_neg (by rw [hm]; decide)] at h
  have hpair := Prod.mk.inj (Except.ok.inj h)
  refine ⟨acc, hacc, hpair.2.symm, ?_, ?_, ?_⟩ <;> rw [← hpair.1]

theorem fetch_userId_ne (s : ExchangeState) (n : Order) :
    ∀ o ∈ fetchOppositeOrders s n, o.userId ≠ n.userId := by
  intro o ho
  have h := ((mem_fetchOppositeOrders s n o).1 ho).2
  unfold codeEligible at h
  simp only [Bool.and_eq_true, decide_eq_true_eq] at h
  exact h.1.2

theorem findOrder_id {l : List Order} {i : ℕ} {o : Order}
    (h : findOrder l i = some o) : o.id = i := by
  induction l with
  | nil => cases h
  | cons a t ih =>
    by_cases ha : a.id = i
    · cases Option.some.inj (by simpa [findOrder, ha] using h)
      exact ha
    · exact ih (by simpa [findOrder, ha] using h)

theorem userFrozen_eq_of_users {s s' : ExchangeState} (h : s'.users = s.users)
    (uid : ℕ) : userFrozen s' uid = userFrozen s uid := by
  unfold userFrozen findUser
  rw [h]

theorem posFrozen_eq_of_positions {s s' : ExchangeState}
    (h : s'.positions = s.positions) (uid : ℕ) (sym : String) :
    posFrozen s' uid sym = posFrozen s uid sym := by
  unfold posFrozen findPos
  rw [h]

theorem matchStep_sum {n : Order} {snap : ExchangeState} {acc acc' : MatchAccum}
    {opp : Order} (h : matchStep n snap acc opp = .ok acc') :
    acc'.remainingQuantity + acc'.filledQuantity =
      acc.remainingQuantity + acc.filledQuantity := by
  unfold matchStep at h
  by_cases hc1 : opp.quantity - opp.filledQuantity ≤ 0
  · rw [if_pos hc1] at h
    cases Except.ok.inj h
    rfl
  · rw [if_neg hc1] at h
    dsimp only at h
    by_cases hc2 :
        min (min acc.remainingQuantity (opp.quantity - opp.filledQuantity))
          (posFrozen snap (if n.type = OrderType.SELL then n.userId else opp.userId)
              n.symbol +
            getChange acc.positionChanges
              (if n.type = OrderType.SELL then n.userId else opp.userId)) ≤ 0
    · rw [if_pos hc2] at h
      cases Except.ok.inj h
      rfl
    · rw [if_neg hc2] at h
      obtain ⟨price, hdp, h⟩ := exceptBind_ok h
      obtain ⟨x, hub, h⟩ := exceptBind_ok h
      obtain ⟨s4, pc⟩ := x
      cases Except.ok.inj h
      show acc.remainingQuantity - _ + (acc.filledQuantity + _) = _
      ring

theorem matchLoop_sum {n : Order} {snap : ExchangeState} :
    ∀ {l : List Order} {acc acc' : MatchAccum},
      matchLoop n snap acc l = .ok acc' →
      acc'.remainingQuantity + acc'.filledQuantity =
        acc.remainingQuantity + acc.filledQuantity := by
  intro l
  induction l with
  | nil =>
    intro acc acc' h
    cases Except.ok.inj h
    rfl
  | cons opp rest ih =>
    intro acc acc' h
    unfold matchLoop at h
    split at h
    · cases Except.ok.inj h
      rfl
    · split at h
      · cases h
      · obtain ⟨acc1, hstep, h⟩ := exceptBind_ok h
        rw [ih h, matchStep_sum hstep]

theorem WF_applyLedgerOps {ops : List LedgerOp} :
    ∀ {s s' : ExchangeState}, WF s → (∀ op ∈ ops, op.nonneg) →
      applyLedgerOps s ops = .ok s' → WF s' := by
  induction ops with
  | nil =>
    intro s s' hwf _ h
    cases Except.ok.inj h
    exact hwf
  | cons op rest ih =>
    intro s s' hwf hops h
    simp only [applyLedgerOps] at h
    cases hstep : applyLedgerOp s op with
    | error e => rw [hstep] at h; cases h
    | ok s1 =>
      rw [hstep] at h
      exact ih (WF_applyLedgerOp hwf (hops op (List.mem_cons_self _ _)) hstep)
        (fun o ho => hops o (List.mem_cons_of_mem _ ho)) h

/-- An empty database, used by the concrete witnesses. -/
def emptyState : ExchangeState :=
  { users := [], positions := [], orders := [], trades := [],
    nextOrderId := 1, nextTradeId := 1 }

/-- Witness fixture: an incoming LIMIT BUY order. -/
def w3Incoming : Order :=
  { id := 2, userId := 1, symbol := "AAPL", type := .BUY, method := .LIMIT,
    price := some 10, quantity := 5, filledQuantity := 0, avgFilledPrice := none,
    status := .OPEN, frozenAmount := 50, actualUsedAmount := 0, createdAt := 10 }

/-- Witness fixture: a resting SELL LIMIT order priced at 10/3. -/
def w3Resting : Order :=
  { id := 1, userId := 2, symbol := "AAPL", type := .SELL, method := .LIMIT,
    price := some (10/3), quantity := 5, filledQuantity := 0, avgFilledPrice := none,
    status := .OPEN, frozenAmount := 0, actualUsedAmount := 0, createdAt := 3 }

/-- Claim C3: for every fill executed between an incoming order and a
resting LIMIT order, the trade price is the resting order's limit price
rounded to 2 decimals — the resting price wins whether the incoming order
is LIMIT (price improvement) or MARKET; when both sides are MARKET the last
trade price on the symbol is used, or the configured default 150 when no
trade exists. -/
theorem C3_trade_price (s : ExchangeState) (n opp : Order) :
    (∀ rp, opp.method = .LIMIT → opp.price = some rp →
      determineTradePrice s n opp = .ok (round2 rp)) ∧
    (n.method = .MARKET → opp.method = .MARKET →
      determineTradePrice s n opp =
        .ok (round2 ((recentTradePrice s n.symbol).getD 150))) := by
  constructor
  · intro rp hLim hp
    unfold determineTradePrice
    rw [if_neg (by rintro ⟨-, hc⟩; rw [hLim] at hc; cases hc), hp]
    cases hnm : n.method with
    | LIMIT =>
      rw [if_neg (by decide), if_neg (by rw [hLim]; decide)]
    | MARKET =>
      rw [if_pos rfl]
  · intro h1 h2
    unfold determineTradePrice
    rw [if_pos ⟨h1, h2⟩]
    cases h : recentTradePrice s n.symbol <;> simp [h]

/-- Witness for C3: the resting price 10/3 is used and rounded to 3.33. -/
theorem C3_trade_price_witness :
    w3Resting.method = .LIMIT ∧ w3Resting.price = some (10/3 : ℚ) ∧
      determineTradePrice emptyState w3Incoming w3Resting = .ok (333/100 : ℚ) := by
  refine ⟨rfl, rfl, ?_⟩
  have h := (C3_trade_price emptyState w3Incoming w3Resting).1 (10/3) rfl rfl
  rw [h]
  have : round2 (10/3 : ℚ) = (333/100 : ℚ) := by with_unfolding_all decide
  rw [this]

/-- Counterexample fixture for C9: a single matching run produced two
trades at different prices (101 and 103), enqueued as ONE batch. -/
def c9Batch : TradeBatch :=
  { trades := [(101, 1), (103, 2)], totalVolume := 3, timestamp := 0 }

/-- Counterexample to claim C9 as stated: for the trade sequence
[(101,1),(103,2)] executed within one minute (one batch),
`processBatchTrade` forwards only the last price with the total volume, so
the candle opens (and has its low) at 103 — not at the first trade's price
101 as the claim requires. -/
theorem C9_counterexample :
    applyBatches none [c9Batch] =
      some { openPrice := 103, high := 103, low := 103, close := 103,
             volume := 3, timestamp := 0 } ∧
      (103 : ℚ) ≠ 101 := by
  exact ⟨by with_unfolding_all decide, by decide⟩

/-- Claim C9 (amended): when the trades of a minute reach the candle
builder as one price update per trade — each batch holding a single trade,
as when every matching run fills exactly one trade — the accumulated
1-minute candle opens at the first trade's price, closes at the last
trade's price, has high equal to the maximum and low equal to the minimum
trade price, and volume equal to the summed quantities; high/low/close/
volume are updated by each update in turn. -/
theorem C9_candle_accumulation (ts : ℕ) (t : ℚ × ℤ) (rest : List (ℚ × ℤ)) :
    ∃ c, applyBatches none (singleTradeBatches ts (t :: rest)) = some c ∧
      c.openPrice = t.1 ∧
      c.close = ((t :: rest).map (·.1)).getLastD t.1 ∧
      c.volume = ((t :: rest).map (·.2)).sum ∧
      c.high ∈ (t :: rest).map (·.1) ∧ (∀ q ∈ (t :: rest).map (·.1), q ≤ c.high) ∧
      c.low ∈ (t :: rest).map (·.1) ∧ (∀ q ∈ (t :: rest).map (·.1), c.low ≤ q) := by
  have h0 : applyBatches none (singleTradeBatches ts (t :: rest)) =
      some (rest.foldl accumulateTrade
        { openPrice := t.1, high := t.1, low := t.1, close := t.1,
          volume := t.2, timestamp := ts / 60000 * 60000 }) :=
    applyBatches_singleTrade ts rest _ rfl
  refine ⟨_, h0, ?_, ?_, ?_, ?_, ?_, ?_, ?_⟩
  · exact foldl_accumulateTrade_openPrice rest _
  · rw [foldl_accumulateTrade_close rest _, List.map_cons, List.getLastD_cons]
  · rw [foldl_accumulateTrade_volume rest _, List.map_cons, List.sum_cons]
  · rcases foldl_accumulateTrade_high_mem rest _ with h | h
    · rw [List.map_cons, h]
      exact List.mem_cons_self _ _
    · rw [List.map_cons]
      exact List.mem_cons_of_mem _ h
  · intro q hq
    rw [List.map_cons] at hq
    obtain ⟨h1, h2⟩ := foldl_accumulateTrade_high_ub rest
      ({ openPrice := t.1, high := t.1, low := t.1, close := t.1,
         volume := t.2, timestamp := ts / 60000 * 60000 } : MinuteData)
    rcases List.mem_cons.1 hq with h | h
    · rw [h]; exact h1
    · rcases List.mem_map.1 h with ⟨u, hu, rfl⟩
      exact h2 u hu
  · rcases foldl_accumulateTrade_low_mem rest _ with h | h
    · rw [List.map_cons, h]
      exact List.mem_cons_self _ _
    · rw [List.map_cons]
      exact List.mem_cons_of_mem _ h
  · intro q hq
    rw [List.map_cons] at hq
    obtain ⟨h1, h2⟩ := foldl_accumulateTrade_low_lb rest
      ({ openPrice := t.1, high := t.1, low := t.1, close := t.1,
         volume := t.2, timestamp := ts / 60000 * 60000 } : MinuteData)
    rcases List.mem_cons.1 hq with h | h
    · rw [h]; exact h1
    · rcases List.mem_map.1 h with ⟨u, hu, rfl⟩
      exact h2 u hu

/-- Witness for C9 on the spec's example: trades at prices
[101, 103, 100, 102] with volumes [1, 2, 1, 1], one per batch. -/
theorem C9_candle_accumulation_witness :
    ∃ c, applyBatches none
        (singleTradeBatches 0 [((101 : ℚ), (1 : ℤ)), (103, 2), (100, 1), (102, 1)]) =
        some c ∧
      c.openPrice = (101, (1 : ℤ)).1 ∧
      c.close = (([((101 : ℚ), (1 : ℤ)), (103, 2), (100, 1), (102, 1)]).map (·.1)).getLastD
        (101, (1 : ℤ)).1 ∧
      c.volume = (([((101 : ℚ), (1 : ℤ)), (103, 2), (100, 1), (102, 1)]).map (·.2)).sum ∧
      c.high ∈ ([((101 : ℚ), (1 : ℤ)), (103, 2), (100, 1), (102, 1)]).map (·.1) ∧
      (∀ q ∈ ([((101 : ℚ), (1 : ℤ)), (103, 2), (100, 1), (102, 1)]).map (·.1), q ≤ c.high) ∧
      c.low ∈ ([((101 : ℚ), (1 : ℤ)), (103, 2), (100, 1), (102, 1)]).map (·.1) ∧
      (∀ q ∈ ([((101 : ℚ), (1 : ℤ)), (103, 2), (100, 1), (102, 1)]).map (·.1), c.low ≤ q) :=
  C9_candle_accumulation 0 (101, 1) [(103, 2), (100, 1), (102, 1)]

/-- Counterexample fixture for C2: a resting SELL owned by user 1. -/
def c2Resting : Order :=
  { id := 1, userId := 1, symbol := "AAPL", type := .SELL, method := .LIMIT,
    price := some 100, quantity := 5, filledQuantity := 0, avgFilledPrice := none,
    status := .OPEN, frozenAmount := 0, actualUsedAmount := 0, createdAt := 1 }

/-- Counterexample fixture for C2: an incoming LIMIT BUY by the same user 1
whose limit price covers the resting SELL. -/
def c2Incoming : Order :=
  { id := 2, userId := 1, symbol := "AAPL", type := .BUY, method := .LIMIT,
    price := some 110, quantity := 5, filledQuantity := 0, avgFilledPrice := none,
    status := .OPEN, frozenAmount := 550, actualUsedAmount := 0, createdAt := 2 }

/-- Counterexample fixture for C2: the book holding only user 1's SELL. -/
def c2State : ExchangeState := { emptyState with orders := [c2Resting] }

/-- Counterexample to claim C2 as stated: the resting SELL is a
non-terminal order of the opposite side on the same symbol satisfying the
price relation (so the claim's "exactly" requires it to be fetched), yet
the code's book query excludes it because it belongs to the submitting
user. -/
theorem C2_counterexample :
    c2Resting ∈ c2State.orders ∧ claimEligible c2Incoming c2Resting = true ∧
      c2Resting ∉ fetchOppositeOrders c2State c2Incoming := by
  with_unfolding_all decide

/-- Claim C2 (amended): the candidate set fetched by the matching engine
contains exactly the non-terminal (OPEN or PARTIALLY_FILLED) orders of the
opposite side on the same symbol BELONGING TO OTHER USERS that satisfy the
price relation (resting price ≤ the buy limit for an incoming LIMIT BUY,
resting price ≥ the sell limit for an incoming LIMIT SELL, no price
relation for MARKET), and the candidates are iterated sorted best price
first — ascending for an incoming BUY, descending for an incoming SELL —
with ties broken by earliest `createdAt`; hence every fill of an incoming
BUY is taken against the minimum-priced eligible resting SELL, oldest
first. -/
theorem C2_book_query (s : ExchangeState) (n : Order) :
    (∀ o, o ∈ fetchOppositeOrders s n ↔ (o ∈ s.orders ∧ codeEligible n o = true)) ∧
    List.Sorted (bookRel n.type) (fetchOppositeOrders s n) ∧
    (∀ a b : Order, ∀ pa pb : ℚ, a.price = some pa → b.price = some pb →
      (bookRel .BUY a b ↔ (pa < pb ∨ (pa = pb ∧ a.createdAt ≤ b.createdAt))) ∧
      (bookRel .SELL a b ↔ (pb < pa ∨ (pa = pb ∧ a.createdAt ≤ b.createdAt)))) := by
  refine ⟨mem_fetchOppositeOrders s n, sorted_fetchOppositeOrders s n, ?_⟩
  intro a b pa pb ha hb
  exact ⟨bookRel_buy_iff a b pa pb ha hb, bookRel_sell_iff a b pa pb ha hb⟩

/-- Witness fixture for C2: a resting SELL at 100 by user 1, created early. -/
def w2SellA : Order :=
  { id := 1, userId := 1, symbol := "AAPL", type := .SELL, method := .LIMIT,
    price := some 100, quantity := 5, filledQuantity := 0, avgFilledPrice := none,
    status := .OPEN, frozenAmount := 0, actualUsedAmount := 0, createdAt := 5 }

/-- Witness fixture for C2: a cheaper resting SELL at 99 by user 2. -/
def w2SellB : Order :=
  { id := 2, userId := 2, symbol := "AAPL", type := .SELL, method := .LIMIT,
    price := some 99, quantity := 3, filledQuantity := 0, avgFilledPrice := none,
    status := .OPEN, frozenAmount := 0, actualUsedAmount := 0, createdAt := 7 }

/-- Witness fixture for C2: the incoming LIMIT BUY at 110 by user 3. -/
def w2Incoming : Order :=
  { id := 3, userId := 3, symbol := "AAPL", type := .BUY, method := .LIMIT,
    price := some 110, quantity := 4, filledQuantity := 0, avgFilledPrice := none,
    status := .OPEN, frozenAmount := 440, actualUsedAmount := 0, createdAt := 9 }

/-- Witness fixture for C2: the book with the two sells. -/
def w2State : ExchangeState := { emptyState with orders := [w2SellA, w2SellB] }

/-- Witness for C2 at a concrete book. -/
theorem C2_book_query_witness :
    (w2SellA ∈ fetchOppositeOrders w2State w2Incoming ↔
      (w2SellA ∈ w2State.orders ∧ codeEligible w2Incoming w2SellA = true)) ∧
    List.Sorted (bookRel w2Incoming.type) (fetchOppositeOrders w2State w2Incoming) ∧
    (bookRel .BUY w2SellB w2SellA ↔
      ((99 : ℚ) < 100 ∨ ((99 : ℚ) = 100 ∧ 7 ≤ 5))) :=
  ⟨(C2_book_query w2State w2Incoming).1 w2SellA,
   (C2_book_query w2State w2Incoming).2.1,
   ((C2_book_query w2State w2Incoming).2.2 w2SellB w2SellA 99 100 rfl rfl).1⟩

/-- Claim C1: for every account and every position, after every committed
operation of any sequence of ledger mutations produced by order
submissions, fills, and cancellations, the reserved amounts are within
bounds — `0 ≤ frozenBalance ≤ balance` for the account's cash and
`0 ≤ frozenQuantity ≤ quantity` for each position — and in particular every
ledger primitive (freeze, unfreeze, pay, adjust) preserves this invariant
(a single-element sequence).  A transaction error commits nothing. -/
theorem C1_ledger_invariant {s s' : ExchangeState} {ops : List LedgerOp}
    (hwf : WF s) (hops : ∀ op ∈ ops, op.nonneg)
    (h : applyLedgerOps s ops = .ok s') :
    WF s' ∧
    (∀ uid u, findUser s' uid = some u →
      0 ≤ u.frozenBalance ∧ u.frozenBalance ≤ u.balance) ∧
    (∀ uid sym p, findPos s' uid sym = some p →
      0 ≤ p.frozenQuantity ∧ p.frozenQuantity ≤ p.quantity) := by
  have hwf' := WF_applyLedgerOps hwf hops h
  refine ⟨hwf', ?_, ?_⟩
  · intro uid u hu
    exact hwf'.2.2.1 (uid, u) (alookup_mem hu)
  · intro uid sym p hp
    exact hwf'.2.2.2 ((uid, sym), p) (alookup_mem hp)

/-- Witness fixture for C1: one funded user holding one position. -/
def w1State : ExchangeState :=
  { users := [(1, { balance := 1000, frozenBalance := 0 })],
    positions := [((1, "AAPL"), { quantity := 10, frozenQuantity := 0, avgPrice := 150 })],
    orders := [], trades := [], nextOrderId := 1, nextTradeId := 1 }

/-- Witness fixture for C1: a sequence of ledger operations exercising
freeze, pay, unfreeze, position freeze, settlement and credit. -/
def w1Ops : List LedgerOp :=
  [.freezeBalance 1 100, .payBalance 1 40, .unfreezeBalance 1 60,
   .freezePosition 1 "AAPL" 5, .sellPosition 1 "AAPL" 2,
   .creditBalance 1 300, .adjustFrozenQuantity 1 "AAPL" (-3)]

/-- Witness fixture for C1: the state the operation sequence commits. -/
def w1Final : ExchangeState :=
  { users := [(1, { balance := 1260, frozenBalance := 0 })],
    positions := [((1, "AAPL"), { quantity := 8, frozenQuantity := 0, avgPrice := 150 })],
    orders := [], trades := [], nextOrderId := 1, nextTradeId := 1 }

instance {ε α : Type} [DecidableEq ε] [DecidableEq α] : DecidableEq (Except ε α)
  | .error e, .error f =>
    if h : e = f then .isTrue (by rw [h]) else .isFalse (fun hc => h (Except.error.inj hc))
  | .ok x, .ok y =>
    if h : x = y then .isTrue (by rw [h]) else .isFalse (fun hc => h (Except.ok.inj hc))
  | .error _, .ok _ => .isFalse (fun hc => by cases hc)
  | .ok _, .error _ => .isFalse (fun hc => by cases hc)

set_option maxRecDepth 8000 in
/-- Witness for C1 on a concrete operation sequence. -/
theorem C1_ledger_invariant_witness :
    WF w1State ∧ (∀ op ∈ w1Ops, op.nonneg) ∧
      applyLedgerOps w1State w1Ops = .ok w1Final ∧ WF w1Final :=
  ⟨by with_unfolding_all decide, by with_unfolding_all decide,
   by with_unfolding_all decide,
   (@C1_ledger_invariant w1State w1Final w1Ops (by with_unfolding_all decide)
     (by with_unfolding_all decide) (by with_unfolding_all decide)).1⟩

/-- Claim C5: for every matching run, the book query excludes all resting
orders belonging to the submitting user, so no trade record is created
whose buy order and sell order belong to the same user: every trade has
`buyUserId ≠ sellUserId` (the user ids reached through the trade's
`buyOrder` / `sellOrder` relations). -/
theorem C5_no_self_trade {s s' : ExchangeState} {n : Order} {r : MatchResult}
    (h : matchOrder n s = .ok (r, s')) :
    (∀ o ∈ fetchOppositeOrders s n, o.userId ≠ n.userId) ∧
    (∀ t ∈ r.trades, t.buyUserId ≠ t.sellUserId) := by
  refine ⟨fetch_userId_ne s n, ?_⟩
  cases hm : n.method with
  | MARKET =>
    obtain ⟨acc, latest, hacc, -, -, -, htr, -⟩ := matchOrder_market hm h
    rw [htr]
    exact matchLoop_userIds (fetch_userId_ne s n) (by intro t ht; cases ht) hacc
  | LIMIT =>
    obtain ⟨acc, hacc, -, -, htr, -⟩ := matchOrder_limit hm h
    rw [htr]
    exact matchLoop_userIds (fetch_userId_ne s n) (by intro t ht; cases ht) hacc

/-- Witness fixture for C5: a resting SELL LIMIT 5 @ 100 by user 2. -/
def w5Resting : Order :=
  { id := 1, userId := 2, symbol := "AAPL", type := .SELL, method := .LIMIT,
    price := some 100, quantity := 5, filledQuantity := 0, avgFilledPrice := none,
    status := .OPEN, frozenAmount := 0, actualUsedAmount := 0, createdAt := 1 }

/-- Witness fixture for C5: the incoming BUY LIMIT 3 @ 110 by user 1,
already transitioned to OPEN with 330 of cash frozen at submission. -/
def w5Incoming : Order :=
  { id := 2, userId := 1, symbol := "AAPL", type := .BUY, method := .LIMIT,
    price := some 110, quantity := 3, filledQuantity := 0, avgFilledPrice := none,
    status := .OPEN, frozenAmount := 330, actualUsedAmount := 0, createdAt := 2 }

/-- Witness fixture for C5: buyer 1 has 500 frozen of 1000; seller 2 holds
10 shares with 5 frozen for the resting order. -/
def w5State : ExchangeState :=
  { users := [(1, { balance := 1000, frozenBalance := 500 }),
              (2, { balance := 500, frozenBalance := 0 })],
    positions := [((2, "AAPL"), { quantity := 10, frozenQuantity := 5, avgPrice := 150 })],
    orders := [w5Resting, w5Incoming], trades := [],
    nextOrderId := 3, nextTradeId := 1 }

/-- Witness fixture for C5: the match result of the run (one fill of 3 at
the resting price 100). -/
def w5Result : MatchResult :=
  { filledQuantity := 3, finalStatus := .FILLED,
    trades := [{ id := 1, buyOrderId := 2, sellOrderId := 1, buyUserId := 1,
                 sellUserId := 2, price := 100, quantity := 3, symbol := "AAPL" }] }

/-- Witness fixture for C5: the resting order after its partial fill. -/
def w5RestingAfter : Order :=
  { id := 1, userId := 2, symbol := "AAPL", type := .SELL, method := .LIMIT,
    price := some 100, quantity := 5, filledQuantity := 3,
    avgFilledPrice := some 100, status := .PARTIALLY_FILLED,
    frozenAmount := 0, actualUsedAmount := 300, createdAt := 1 }

/-- Witness fixture for C5: the incoming order after it fills completely. -/
def w5IncomingAfter : Order :=
  { id := 2, userId := 1, symbol := "AAPL", type := .BUY, method := .LIMIT,
    price := some 110, quantity := 3, filledQuantity := 3,
    avgFilledPrice := some 100, status := .FILLED,
    frozenAmount := 330, actualUsedAmount := 300, createdAt := 2 }

/-- Witness fixture for C5: the state after the fill settles. -/
def w5Final : ExchangeState :=
  { users := [(1, { balance := 700, frozenBalance := 170 }),
              (2, { balance := 800, frozenBalance := 0 })],
    positions := [((1, "AAPL"), { quantity := 3, frozenQuantity := 0, avgPrice := 100 }),
                  ((2, "AAPL"), { quantity := 10, frozenQuantity := 2, avgPrice := 150 })],
    orders := [w5RestingAfter, w5IncomingAfter],
    trades := [{ id := 1, buyOrderId := 2, sellOrderId := 1, buyUserId := 1,
                 sellUserId := 2, price := 100, quantity := 3, symbol := "AAPL" }],
    nextOrderId := 3, nextTradeId := 2 }

set_option maxRecDepth 100000 in
/-- Witness for C5 on a concrete run that executes one fill. -/
theorem C5_no_self_trade_witness :
    matchOrder w5Incoming w5State = .ok (w5Result, w5Final) ∧
      w5Result.trades ≠ [] ∧
      (∀ t ∈ w5Result.trades, t.buyUserId ≠ t.sellUserId) := by
  have h : matchOrder w5Incoming w5State = .ok (w5Result, w5Final) := by
    with_unfolding_all decide
  exact ⟨h, by decide, (C5_no_self_trade h).2⟩

/-- Claim C4: for every MARKET order, after matching completes the final
status is CANCELLED on any residual (FILLED exactly when the filled
quantity reaches the ordered quantity), the stored row carries that final
status — so a MARKET order never rests on the book as OPEN or
PARTIALLY_FILLED — and the residual reservation is released within the same
transaction: starting from the post-fill state, the remaining frozen cash
of a BUY (`frozenAmount - actualUsedAmount` of the latest row) or the
remaining frozen shares of a SELL (the unfilled quantity clamped to the
frozen position) are released. -/
theorem C4_market_never_rests {s s' : ExchangeState} {oid : ℕ} {ord : Order}
    {st : OrderStatus} {fq : ℤ}
    (hord : findOrder s.orders oid = some ord) (hm : ord.method = .MARKET)
    (h : handleOrderSync s oid = .ok (st, fq, s')) :
    (st ≠ .OPEN ∧ st ≠ .PARTIALLY_FILLED) ∧
    (st = .FILLED ↔ ord.quantity ≤ fq) ∧
    (∀ o ∈ s'.orders, o.id = oid → o.status = st ∧ o.filledQuantity = fq) ∧
    (∃ sMid latest, findOrder sMid.orders oid = some latest ∧
      (latest.type = .BUY →
        0 ≤ latest.frozenAmount - latest.actualUsedAmount ∧
        latest.frozenAmount - latest.actualUsedAmount ≤ userFrozen sMid ord.userId ∧
        userFrozen s' ord.userId =
          userFrozen sMid ord.userId -
            (latest.frozenAmount - latest.actualUsedAmount)) ∧
      (latest.type = .SELL →
        posFrozen s' ord.userId latest.symbol =
          posFrozen sMid ord.userId latest.symbol -
            max 0 (min (ord.quantity - fq)
              (posFrozen sMid ord.userId latest.symbol)))) := by
  unfold handleOrderSync at h
  split at h
  · rename_i hnone
    rw [hord] at hnone
    cases hnone
  · rename_i o' ho'
    rw [hord] at ho'
    cases Option.some.inj ho'
    split at h
    · cases h
    · obtain ⟨x, hmo, h⟩ := exceptBind_ok h
      obtain ⟨r, s2⟩ := x
      dsimp only at h hmo
      obtain ⟨acc, latest, hacc, hlo, hunf, hfq, -, hst2⟩ :=
        matchOrder_market (show Order.method { ord with status := OrderStatus.OPEN } =
          .MARKET from hm) hmo
      dsimp only at hst2 hlo hunf hacc
      have hne : r.finalStatus ≠ OrderStatus.OPEN := by
        rw [hst2]
        by_cases hA : ord.quantity ≤ acc.filledQuantity
        · rw [if_pos hA]; decide
        · rw [if_neg hA]; decide
      rw [if_pos hne] at h
      have hpair1 := Prod.mk.inj (Except.ok.inj h)
      have hst : r.finalStatus = st := hpair1.1
      have hpair2 := Prod.mk.inj hpair1.2
      have hfq2 : r.filledQuantity = fq := hpair2.1
      have hs3 : updOrder s2 oid (fun o =>
          { o with status := r.finalStatus, filledQuantity := r.filledQuantity }) = s' :=
        hpair2.2
      have hid : ord.id = oid := findOrder_id hord
      have hstval : st = (if ord.quantity ≤ acc.filledQuantity then OrderStatus.FILLED
          else OrderStatus.CANCELLED) := by rw [← hst, hst2]
      have hfqval : fq = acc.filledQuantity := by rw [← hfq2, hfq]
      refine ⟨?_, ?_, ?_, ?_⟩
      · rw [hstval]
        by_cases hA : ord.quantity ≤ acc.filledQuantity
        · rw [if_pos hA]; exact ⟨by decide, by decide⟩
        · rw [if_neg hA]; exact ⟨by decide, by decide⟩
      · rw [hstval, hfqval]
        by_cases hA : ord.quantity ≤ acc.filledQuantity
        · rw [if_pos hA]; exact ⟨fun _ => hA, fun _ => rfl⟩
        · rw [if_neg hA]
          exact ⟨(by intro hc; cases hc), fun hc => absurd hc hA⟩
      · intro o ho hoid
        rw [← hs3] at ho
        obtain ⟨a, ha, heq⟩ := mem_updOrder_orders ho
        by_cases hai : a.id = oid
        · rw [if_pos hai] at heq
          rw [heq, hst, hfq2]
          exact ⟨rfl, rfl⟩
        · rw [if_neg hai] at heq
          rw [heq] at hoid
          exact absurd hoid hai
      · refine ⟨acc.state, latest, ?_, ?_, ?_⟩
        · rw [← hid]
          exact hlo
        · intro hbuy
          obtain ⟨h1, h2, h3, -, -⟩ := unfreezeOrderResources_buy hbuy hunf
          refine ⟨h1, h2, ?_⟩
          rw [← userFrozen_eq_of_users (show s'.users = s2.users from by
            rw [← hs3]; rfl) ord.userId] at h3
          exact h3
        · intro hsell
          obtain ⟨h1, -, -⟩ := unfreezeOrderResources_sell hsell hunf
          have hrem : acc.remainingQuantity = ord.quantity - fq := by
            have h0 : acc.remainingQuantity + acc.filledQuantity =
                ord.quantity + 0 := matchLoop_sum hacc
            rw [hfqval]
            linarith
          rw [← hrem]
          rw [← posFrozen_eq_of_positions (show s'.positions = s2.positions from by
            rw [← hs3]; rfl) ord.userId latest.symbol] at h1
          exact h1

/-- Witness fixture for C4: a PENDING MARKET BUY for 5 shares with 800 of
cash frozen, facing an empty book. -/
def w4Order : Order :=
  { id := 1, userId := 1, symbol := "AAPL", type := .BUY, method := .MARKET,
    price := none, quantity := 5, filledQuantity := 0, avgFilledPrice := none,
    status := .PENDING, frozenAmount := 800, actualUsedAmount := 0, createdAt := 1 }

/-- Witness fixture for C4: the pre-processing state. -/
def w4State : ExchangeState :=
  { users := [(1, { balance := 1000, frozenBalance := 800 })],
    positions := [], orders := [w4Order], trades := [],
    nextOrderId := 2, nextTradeId := 1 }

/-- Witness fixture for C4: the order after the run cancels it. -/
def w4OrderAfter : Order :=
  { id := 1, userId := 1, symbol := "AAPL", type := .BUY, method := .MARKET,
    price := none, quantity := 5, filledQuantity := 0, avgFilledPrice := none,
    status := .CANCELLED, frozenAmount := 800, actualUsedAmount := 0, createdAt := 1 }

/-- Witness fixture for C4: the state after the run, with the whole
reservation released. -/
def w4Final : ExchangeState :=
  { users := [(1, { balance := 1000, frozenBalance := 0 })],
    positions := [], orders := [w4OrderAfter], trades := [],
    nextOrderId := 2, nextTradeId := 1 }

set_option maxRecDepth 100000 in
/-- Witness for C4 on a concrete run: the unfilled MARKET BUY is cancelled
and its 800 reservation is fully released. -/
theorem C4_market_never_rests_witness :
    findOrder w4State.orders 1 = some w4Order ∧ w4Order.method = .MARKET ∧
    handleOrderSync w4State 1 = .ok (OrderStatus.CANCELLED, 0, w4Final) ∧
    ((OrderStatus.CANCELLED ≠ OrderStatus.OPEN ∧
      OrderStatus.CANCELLED ≠ OrderStatus.PARTIALLY_FILLED) ∧
     (OrderStatus.CANCELLED = OrderStatus.FILLED ↔ w4Order.quantity ≤ 0) ∧
     (∀ o ∈ w4Final.orders, o.id = 1 →
       o.status = OrderStatus.CANCELLED ∧ o.filledQuantity = 0) ∧
     (∃ sMid latest, findOrder sMid.orders 1 = some latest ∧
       (latest.type = .BUY →
         0 ≤ latest.frozenAmount - latest.actualUsedAmount ∧
         latest.frozenAmount - latest.actualUsedAmount ≤
           userFrozen sMid w4Order.userId ∧
         userFrozen w4Final w4Order.userId =
           userFrozen sMid w4Order.userId -
             (latest.frozenAmount - latest.actualUsedAmount)) ∧
       (latest.type = .SELL →
         posFrozen w4Final w4Order.userId latest.symbol =
           posFrozen sMid w4Order.userId latest.symbol -
             max 0 (min (w4Order.quantity - 0)
               (posFrozen sMid w4Order.userId latest.symbol))))) := by
  have h1 : findOrder w4State.orders 1 = some w4Order := by with_unfolding_all decide
  have h2 : w4Order.method = .MARKET := rfl
  have h3 : handleOrderSync w4State 1 = .ok (OrderStatus.CANCELLED, 0, w4Final) := by
    with_unfolding_all decide
  exact ⟨h1, h2, h3, C4_market_never_rests h1 h2 h3⟩

/-- Counterexample fixture for C6: a PENDING BUY LIMIT order of user 1. -/
def c6Order : Order :=
  { id := 1, userId := 1, symbol := "AAPL", type := .BUY, method := .LIMIT,
    price := some 10, quantity := 5, filledQuantity := 0, avgFilledPrice := none,
    status := .PENDING, frozenAmount := 50, actualUsedAmount := 0, createdAt := 1 }

/-- Counterexample fixture for C6: its state. -/
def c6State : ExchangeState :=
  { users := [(1, { balance := 1000, frozenBalance := 50 })],
    positions := [], orders := [c6Order], trades := [],
    nextOrderId := 2, nextTradeId := 1 }

/-- Counterexample to claim C6 as stated: the owner cancels a PENDING
order, and instead of transitioning it to CANCELLED and releasing the
reservation, the code rejects the call with a BadRequest ("status does not
allow cancellation"). -/
theorem C6_counterexample :
    (findOrder c6State.orders 1).map Order.status = some OrderStatus.PENDING ∧
      cancelOrder c6State 1 1 = .error .badRequest := by
  with_unfolding_all decide

/-- Claim C6 (amended): cancelOrder is NOT_FOUND on an unknown id and
FORBIDDEN for a non-owner (no state change); terminal orders (FILLED or
CANCELLED) return success idempotently with no ledger effect; an OPEN or
PARTIALLY_FILLED order is atomically transitioned to CANCELLED with its
residual reservation released — for a BUY the unconsumed frozen cash
(`frozenAmount - actualUsedAmount`, within the account's current frozen
balance), for a SELL the unfilled quantity clamped to the position's frozen
quantity; a PENDING order is REJECTED with a validation error (BadRequest)
and left unchanged, not cancelled. -/
theorem C6_cancel_order (s : ExchangeState) (orderId userId : ℕ) :
    (findOrder s.orders orderId = none →
      cancelOrder s orderId userId = .error .notFound) ∧
    (∀ ord, findOrder s.orders orderId = some ord →
      (ord.userId ≠ userId → cancelOrder s orderId userId = .error .forbidden) ∧
      (ord.userId = userId → (ord.status = .CANCELLED ∨ ord.status = .FILLED) →
        cancelOrder s orderId userId = .ok (true, s)) ∧
      (ord.userId = userId → ord.status = .PENDING →
        cancelOrder s orderId userId = .error .badRequest) ∧
      (∀ b s', ord.userId = userId →
        (ord.status = .OPEN ∨ ord.status = .PARTIALLY_FILLED) →
        cancelOrder s orderId userId = .ok (b, s') →
        b = true ∧
        (∀ o ∈ s'.orders, o.id = orderId → o.status = .CANCELLED) ∧
        (ord.type = .BUY →
          0 ≤ ord.frozenAmount - ord.actualUsedAmount ∧
          ord.frozenAmount - ord.actualUsedAmount ≤ userFrozen s userId ∧
          userFrozen s' userId =
            userFrozen s userId - (ord.frozenAmount - ord.actualUsedAmount)) ∧
        (ord.type = .SELL →
          posFrozen s' userId ord.symbol =
            posFrozen s userId ord.symbol -
              max 0 (min (ord.quantity - ord.filledQuantity)
                (posFrozen s userId ord.symbol))))) := by
  constructor
  · intro hnone
    unfold cancelOrder
    rw [hnone]
  · intro ord hord
    refine ⟨?_, ?_, ?_, ?_⟩
    · intro hne
      unfold cancelOrder
      rw [hord]
      dsimp only
      rw [if_pos hne]
    · intro hu hterm
      unfold cancelOrder
      rw [hord]
      dsimp only
      rw [if_neg (fun hc => hc hu)]
      rcases hterm with h1 | h1
      · rw [if_pos h1]
      · rw [if_neg (by rw [h1]; decide), if_pos h1]
    · intro hu hpend
      unfold cancelOrder
      rw [hord]
      dsimp only
      rw [if_neg (fun hc => hc hu),
        if_neg (by rw [hpend]; decide), if_neg (by rw [hpend]; decide),
        if_pos (by rw [hpend]; decide)]
    · intro b s' hu hopen hcancel
      unfold cancelOrder at hcancel
      rw [hord] at hcancel
      dsimp only at hcancel
      rw [if_neg (fun hc => hc hu),
        if_neg (by rcases hopen with h1 | h1 <;> rw [h1] <;> decide),
        if_neg (by rcases hopen with h1 | h1 <;> rw [h1] <;> decide),
        if_neg (by rcases hopen with h1 | h1 <;> rw [h1] <;> simp)] at hcancel
      have hmap := exceptMapError_ok hcancel
      obtain ⟨s2, hunf, hpair⟩ := exceptMap_ok hmap
      have hb : b = true := (Prod.mk.inj hpair).1.symm
      have hs2 : s2 = s' := (Prod.mk.inj hpair).2
      rw [hs2] at hunf
      have horders : s'.orders =
          (updOrder s orderId (fun o =>
            { o with status := OrderStatus.CANCELLED })).orders := by
        cases ht : ord.type with
        | BUY => exact (unfreezeOrderResources_buy ht hunf).2.2.2.2
        | SELL => exact (unfreezeOrderResources_sell ht hunf).2.2
      refine ⟨hb, ?_, ?_, ?_⟩
      · intro o ho hoid
        rw [horders] at ho
        obtain ⟨a, ha, heq⟩ := mem_updOrder_orders ho
        by_cases hai : a.id = orderId
        · rw [if_pos hai] at heq
          rw [heq]
        · rw [if_neg hai] at heq
          rw [heq] at hoid
          exact absurd hoid hai
      · intro hbuy
        obtain ⟨h1, h2, h3, -, -⟩ := unfreezeOrderResources_buy hbuy hunf
        rw [userFrozen_eq_of_users
          (show (updOrder s orderId (fun o =>
            { o with status := OrderStatus.CANCELLED })).users = s.users from rfl)
          userId] at h2 h3
        exact ⟨h1, h2, h3⟩
      · intro hsell
        obtain ⟨h1, -, -⟩ := unfreezeOrderResources_sell hsell hunf
        rw [posFrozen_eq_of_positions
          (show (updOrder s orderId (fun o =>
            { o with status := OrderStatus.CANCELLED })).positions =
            s.positions from rfl) userId ord.symbol] at h1
        exact h1

/-- Witness fixture for C6: an OPEN BUY LIMIT 10 @ 10 with 3 filled, 100
reserved and 30 consumed. -/
def w6Order : Order :=
  { id := 1, userId := 1, symbol := "AAPL", type := .BUY, method := .LIMIT,
    price := some 10, quantity := 10, filledQuantity := 3,
    avgFilledPrice := some 10, status := .OPEN,
    frozenAmount := 100, actualUsedAmount := 30, createdAt := 1 }

/-- Witness fixture for C6: its state (70 frozen = the order's residual). -/
def w6State : ExchangeState :=
  { users := [(1, { balance := 1000, frozenBalance := 70 })],
    positions := [], orders := [w6Order], trades := [],
    nextOrderId := 2, nextTradeId := 1 }

/-- Witness fixture for C6: the state after the cancellation releases the
residual 70. -/
def w6Final : ExchangeState :=
  { users := [(1, { balance := 1000, frozenBalance := 0 })],
    positions := [],
    orders := [{ id := 1, userId := 1, symbol := "AAPL", type := .BUY,
                 method := .LIMIT, price := some 10, quantity := 10,
                 filledQuantity := 3, avgFilledPrice := some 10,
                 status := .CANCELLED, frozenAmount := 100,
                 actualUsedAmount := 30, createdAt := 1 }],
    trades := [], nextOrderId := 2, nextTradeId := 1 }

set_option maxRecDepth 100000 in
/-- Witness for C6 on a concrete cancellation of a partially-consumed OPEN
BUY: the order is cancelled and the residual 70 is released. -/
theorem C6_cancel_order_witness :
    cancelOrder w6State 1 1 = .ok (true, w6Final) ∧
    (true = true ∧
      (∀ o ∈ w6Final.orders, o.id = 1 → o.status = .CANCELLED) ∧
      (w6Order.type = .BUY →
        0 ≤ w6Order.frozenAmount - w6Order.actualUsedAmount ∧
        w6Order.frozenAmount - w6Order.actualUsedAmount ≤ userFrozen w6State 1 ∧
        userFrozen w6Final 1 =
          userFrozen w6State 1 - (w6Order.frozenAmount - w6Order.actualUsedAmount)) ∧
      (w6Order.type = .SELL →
        posFrozen w6Final 1 w6Order.symbol =
          posFrozen w6State 1 w6Order.symbol -
            max 0 (min (w6Order.quantity - w6Order.filledQuantity)
              (posFrozen w6State 1 w6Order.symbol)))) := by
  have hord : findOrder w6State.orders 1 = some w6Order := by with_unfolding_all decide
  have hc : cancelOrder w6State 1 1 = .ok (true, w6Final) := by with_unfolding_all decide
  exact ⟨hc, ((C6_cancel_order w6State 1 1).2 w6Order hord).2.2.2 true w6Final rfl
    (Or.inl rfl) hc⟩

theorem calculateRequiredAmount_buy_limit (s : ExchangeState) (uid : ℕ)
    (price : Option ℚ) (qty : ℤ) :
    calculateRequiredAmount s uid .BUY .LIMIT price qty =
      .ok (price.getD 0 * (qty : ℚ)) := by
  unfold calculateRequiredAmount
  rw [if_pos rfl, if_neg (by decide)]

theorem calculateRequiredAmount_sell (s : ExchangeState) (uid : ℕ)
    (method : OrderMethod) (price : Option ℚ) (qty : ℤ) :
    calculateRequiredAmount s uid .SELL method price qty = .ok 0 := by
  unfold calculateRequiredAmount
  rw [if_neg (by decide)]

theorem calculateRequiredAmount_buy_market_ok {s : ExchangeState} {uid : ℕ}
    {price : Option ℚ} {qty : ℤ} {r : ℚ}
    (h : calculateRequiredAmount s uid .BUY .MARKET price qty = .ok r) :
    ∃ u, findUser s uid = some u ∧ r = u.balance - u.frozenBalance ∧ 0 < r := by
  unfold calculateRequiredAmount at h
  rw [if_pos rfl, if_pos rfl] at h
  cases hu : findUser s uid with
  | none => rw [hu] at h; cases h
  | some u =>
    rw [hu] at h
    dsimp only at h
    split at h
    · cases h
    · rename_i hpos
      have hlt : 0 < max 0 (u.balance - u.frozenBalance) := lt_of_not_le hpos
      have hmax : max 0 (u.balance - u.frozenBalance) = u.balance - u.frozenBalance := by
        rcases max_choice 0 (u.balance - u.frozenBalance) with h1 | h1
        · rw [h1] at hlt; exact absurd hlt (lt_irrefl 0)
        · exact h1
      cases Except.ok.inj h
      exact ⟨u, rfl, hmax, hlt⟩

def afterInsert (s : ExchangeState) (o : Order) : ExchangeState :=
  { s with orders := s.orders ++ [o], nextOrderId := s.nextOrderId + 1 }

theorem submitOrder_ok {s s' : ExchangeState} {userId : ℕ} {symbol : String}
    {type : OrderType} {method : OrderMethod} {price : Option ℚ} {quantity : ℤ}
    {now : ℕ} {o : Order}
    (h : submitOrder s userId symbol type method price quantity now = .ok (o, s')) :
    ∃ required,
      calculateRequiredAmount s userId type method price quantity = .ok required ∧
      o = { id := s.nextOrderId, userId := userId, symbol := symbol, type := type,
            method := method, price := if method = .MARKET then none else price,
            quantity := quantity, filledQuantity := 0, avgFilledPrice := none,
            status := .PENDING, frozenAmount := if type = .BUY then required else 0,
            actualUsedAmount := 0, createdAt := now } ∧
      (if type = .BUY then freezeBalance (afterInsert s o) userId required
       else freezePositionWithTx (afterInsert s o) userId symbol quantity) = .ok s' := by
  unfold submitOrder at h
  obtain ⟨u0, hval, h⟩ := exceptBind_ok h
  split at h
  · cases h
  · obtain ⟨required, hreq, h⟩ := exceptBind_ok h
    obtain ⟨u1, hres, h⟩ := exceptBind_ok h
    dsimp only at h
    obtain ⟨s2, hfz, h⟩ := exceptBind_ok h
    have hpair := Prod.mk.inj (Except.ok.inj h)
    refine ⟨required, hreq, hpair.1.symm, ?_⟩
    rw [hpair.1, hpair.2] at hfz
    exact exceptMapError_ok hfz

/-- Claim C7: the reservation computed and frozen at submission time is
`limitPrice * quantity` for a BUY LIMIT order; the caller's entire
available cash (`balance - frozenBalance`) at submission time for a BUY
MARKET order; and `quantity` shares with zero cash for a SELL order of
either method. -/
theorem C7_reservation {s s' : ExchangeState} {userId : ℕ} {symbol : String}
    {type : OrderType} {method : OrderMethod} {price : Option ℚ} {quantity : ℤ}
    {now : ℕ} {o : Order}
    (h : submitOrder s userId symbol type method price quantity now = .ok (o, s')) :
    (∀ p, type = .BUY → method = .LIMIT → price = some p →
      o.frozenAmount = p * (quantity : ℚ) ∧
      userFrozen s' userId = userFrozen s userId + p * (quantity : ℚ)) ∧
    (type = .BUY → method = .MARKET →
      o.frozenAmount = userBalance s userId - userFrozen s userId ∧
      userFrozen s' userId = userFrozen s userId + o.frozenAmount) ∧
    (type = .SELL →
      o.frozenAmount = 0 ∧
      posFrozen s' userId symbol = posFrozen s userId symbol + quantity ∧
      userFrozen s' userId = userFrozen s userId) := by
  obtain ⟨required, hreq, ho, hfz⟩ := submitOrder_ok h
  refine ⟨?_, ?_, ?_⟩
  · intro p ht hm hp
    rw [ht] at hreq ho hfz
    rw [hm, hp] at hreq
    rw [calculateRequiredAmount_buy_limit] at hreq
    have hreqval : required = p * (quantity : ℚ) := by
      have := Except.ok.inj hreq
      simpa using this.symm
    rw [if_pos rfl] at hfz
    unfold freezeBalance at hfz
    split at hfz
    · cases hfz
    · obtain ⟨he1, -, -, -, -⟩ := adjustFrozenBalance_effect hfz
      constructor
      · rw [ho]
        simpa using hreqval
      · rw [he1, hreqval]
        rfl
  · intro ht hm
    rw [ht] at hreq ho hfz
    rw [hm] at hreq
    obtain ⟨u, hu, hval, hpos⟩ := calculateRequiredAmount_buy_market_ok hreq
    rw [if_pos rfl] at hfz
    unfold freezeBalance at hfz
    split at hfz
    · cases hfz
    · obtain ⟨he1, -, -, -, -⟩ := adjustFrozenBalance_effect hfz
      have hfa : o.frozenAmount = required := by rw [ho]; rfl
      constructor
      · rw [hfa, hval]
        unfold userBalance userFrozen
        rw [hu]
        rfl
      · rw [he1, hfa]
        rfl
  · intro ht
    rw [ht] at hreq ho hfz
    rw [if_neg (by decide)] at hfz
    unfold freezePositionWithTx at hfz
    split at hfz
    · cases hfz
    · obtain ⟨he1, -, he3, -, -⟩ := adjustFrozenQuantity_effect hfz
      refine ⟨by rw [ho]; rfl, ?_, ?_⟩
      · rw [he1]
        rfl
      · rw [userFrozen_eq_of_users he3 userId]
        rfl

/-- Claim C8: order creation and its reservation are one transaction — a
successful submission yields exactly one new PENDING order row appended to
the store together with the matching reservation (cash for a BUY, shares
for a SELL); a reservation failure aborts the transaction, which in this
embedding returns an error carrying no state, so no order is persisted and
the ledger is untouched. -/
theorem C8_atomic_creation {s s' : ExchangeState} {userId : ℕ} {symbol : String}
    {type : OrderType} {method : OrderMethod} {price : Option ℚ} {quantity : ℤ}
    {now : ℕ} {o : Order}
    (h : submitOrder s userId symbol type method price quantity now = .ok (o, s')) :
    o.status = .PENDING ∧ s'.orders = s.orders ++ [o] ∧
    (type = .BUY → userFrozen s' userId = userFrozen s userId + o.frozenAmount) ∧
    (type = .SELL →
      posFrozen s' userId symbol = posFrozen s userId symbol + quantity) := by
  obtain ⟨required, hreq, ho, hfz⟩ := submitOrder_ok h
  refine ⟨by rw [ho], ?_, ?_, ?_⟩
  · cases ht : type with
    | BUY =>
      rw [ht] at hfz
      rw [if_pos rfl] at hfz
      unfold freezeBalance at hfz
      split at hfz
      · cases hfz
      · obtain ⟨-, -, -, he4, -⟩ := adjustFrozenBalance_effect hfz
        rw [he4]
        rfl
    | SELL =>
      rw [ht] at hfz
      rw [if_neg (by decide)] at hfz
      unfold freezePositionWithTx at hfz
      split at hfz
      · cases hfz
      · obtain ⟨-, -, -, he4, -⟩ := adjustFrozenQuantity_effect hfz
        rw [he4]
        rfl
  · intro ht
    rw [ht] at hfz ho
    rw [if_pos rfl] at hfz
    unfold freezeBalance at hfz
    split at hfz
    · cases hfz
    · obtain ⟨he1, -, -, -, -⟩ := adjustFrozenBalance_effect hfz
      rw [he1, ho]
      rfl
  · intro ht
    rw [ht] at hfz
    rw [if_neg (by decide)] at hfz
    unfold freezePositionWithTx at hfz
    split at hfz
    · cases hfz
    · obtain ⟨he1, -, -, -, -⟩ := adjustFrozenQuantity_effect hfz
      rw [he1]
      rfl

/-- Claim C10: a BUY MARKET submission by a caller whose available cash
(`max 0 (balance - frozenBalance)`) is zero is rejected synchronously with
a validation error even for a positive quantity — the transaction never
starts, so nothing is created or frozen — and consequently every accepted
BUY MARKET order carries a strictly positive cash reservation. -/
theorem C10_market_buy_positive_reservation (s : ExchangeState) (userId : ℕ)
    (symbol : String) (price : Option ℚ) (quantity : ℤ) (now : ℕ) :
    (∀ u, findUser s userId = some u → u.balance - u.frozenBalance ≤ 0 →
      0 < quantity →
      submitOrder s userId symbol .BUY .MARKET price quantity now =
        .error .badRequest) ∧
    (∀ o s', submitOrder s userId symbol .BUY .MARKET price quantity now =
      .ok (o, s') → 0 < o.frozenAmount) := by
  constructor
  · intro u hu hz hq
    have hval : validateOrderInput .MARKET price quantity = .ok () := by
      unfold validateOrderInput
      rw [if_neg (by rintro ⟨hc, -⟩; cases hc), if_neg (not_le.2 hq)]
    have hreq : calculateRequiredAmount s userId .BUY .MARKET price quantity =
        .error .badRequest := by
      unfold calculateRequiredAmount
      rw [if_pos rfl, if_pos rfl, hu]
      dsimp only
      rw [if_pos (max_le (le_refl 0) hz)]
    unfold submitOrder
    rw [hval, hu, hreq]
    rfl
  · intro o s' h
    obtain ⟨required, hreq, ho, -⟩ := submitOrder_ok h
    obtain ⟨u, -, -, hpos⟩ := calculateRequiredAmount_buy_market_ok hreq
    rw [ho]
    simpa using hpos

/-- Witness fixture for C7: a single cash account with no reservation. -/
def w7State : ExchangeState :=
  { users := [(1, { balance := 1000, frozenBalance := 0 })],
    positions := [], orders := [], trades := [],
    nextOrderId := 1, nextTradeId := 1 }

/-- Witness fixture for C7: the PENDING BUY LIMIT row the submission creates
(10 × 5 = 50 reserved). -/
def w7Order : Order :=
  { id := 1, userId := 1, symbol := "AAPL", type := .BUY, method := .LIMIT,
    price := some 10, quantity := 5, filledQuantity := 0,
    avgFilledPrice := none, status := .PENDING,
    frozenAmount := 50, actualUsedAmount := 0, createdAt := 7 }

/-- Witness fixture for C7: the state after the submission froze 50. -/
def w7Final : ExchangeState :=
  { users := [(1, { balance := 1000, frozenBalance := 50 })],
    positions := [], orders := [w7Order], trades := [],
    nextOrderId := 2, nextTradeId := 1 }

set_option maxRecDepth 100000 in
/-- Witness for C7 on a concrete BUY LIMIT submission at price 10 for 5
shares: the order's reservation is 10 × 5 and the account's frozen cash
grows by exactly that amount. -/
theorem C7_reservation_witness :
    w7Order.frozenAmount = 10 * ((5 : ℤ) : ℚ) ∧
    userFrozen w7Final 1 = userFrozen w7State 1 + 10 * ((5 : ℤ) : ℚ) :=
  (C7_reservation
    (by with_unfolding_all decide :
      submitOrder w7State 1 "AAPL" .BUY .LIMIT (some 10) 5 7 =
        .ok (w7Order, w7Final))).1 10 rfl rfl rfl

/-- Witness fixture for C8: a seller holding 10 unreserved shares. -/
def w8State : ExchangeState :=
  { users := [(1, { balance := 0, frozenBalance := 0 })],
    positions := [((1, "AAPL"), { quantity := 10, frozenQuantity := 0, avgPrice := 5 })],
    orders := [], trades := [],
    nextOrderId := 1, nextTradeId := 1 }

/-- Witness fixture for C8: the PENDING SELL LIMIT row the submission
creates (no cash reserved). -/
def w8Order : Order :=
  { id := 1, userId := 1, symbol := "AAPL", type := .SELL, method := .LIMIT,
    price := some 10, quantity := 4, filledQuantity := 0,
    avgFilledPrice := none, status := .PENDING,
    frozenAmount := 0, actualUsedAmount := 0, createdAt := 3 }

/-- Witness fixture for C8: the state after the submission froze 4 shares
and appended the new order row. -/
def w8Final : ExchangeState :=
  { users := [(1, { balance := 0, frozenBalance := 0 })],
    positions := [((1, "AAPL"), { quantity := 10, frozenQuantity := 4, avgPrice := 5 })],
    orders := [w8Order], trades := [],
    nextOrderId := 2, nextTradeId := 1 }

set_option maxRecDepth 100000 in
/-- Witness for C8 on a concrete SELL LIMIT submission of 4 shares: the new
row is PENDING, it is appended to the order store, and 4 shares are frozen
in the same transaction. -/
theorem C8_atomic_creation_witness :
    w8Order.status = .PENDING ∧
    w8Final.orders = w8State.orders ++ [w8Order] ∧
    (OrderType.SELL = OrderType.BUY →
      userFrozen w8Final 1 = userFrozen w8State 1 + w8Order.frozenAmount) ∧
    (OrderType.SELL = OrderType.SELL →
      posFrozen w8Final 1 "AAPL" = posFrozen w8State 1 "AAPL" + 4) :=
  C8_atomic_creation
    (by with_unfolding_all decide :
      submitOrder w8State 1 "AAPL" .SELL .LIMIT (some 10) 4 3 =
        .ok (w8Order, w8Final))

/-- Witness fixture for C10: an account whose cash is fully reserved, so
its available balance is zero. -/
def w10State : ExchangeState :=
  { users := [(1, { balance := 100, frozenBalance := 100 })],
    positions := [], orders := [], trades := [],
    nextOrderId := 1, nextTradeId := 1 }

set_option maxRecDepth 100000 in
/-- Witness for C10 on a concrete BUY MARKET submission with zero available
cash: the submission is rejected with a validation error. -/
theorem C10_market_buy_positive_reservation_witness :
    submitOrder w10State 1 "AAPL" .BUY .MARKET none 5 0 = .error .badRequest :=
  (C10_market_buy_positive_reservation w10State 1 "AAPL" none 5 0).1
    { balance := 100, frozenBalance := 100 } rfl
    (by with_unfolding_all decide) (by decide)

end Exch
